import Mathlib

/-!
Verification of the StrandKit add-on (src/__init__.py): a shallow embedding of
the texture-swap operator, the folder resolver, and the modal bake orchestrator
(HAIRCARD_OT_BakeTextures), together with theorems settling the specification
claims about them.

The embedding models Blender shading graphs as lists of nodes and links,
the filesystem as an association list from paths to byte lists, and the
external render backend (bpy.ops.object.bake followed by image.save_as) as an
uninterpreted function passed as a parameter.  Host-side concerns with no
bearing on the claims (window-manager progress bars, UV attribute conversion,
object selection state) are not modelled.
-/

/-- Shading node types relevant to the bake/swap code paths (node.type strings
in Blender; every other type behaves uniformly and is collapsed to OTHER). -/
inductive NodeType where
  | BSDF_PRINCIPLED
  | NORMAL_MAP
  | TEX_IMAGE
  | OUTPUT_MATERIAL
  | EMISSION
  | OTHER
deriving DecidableEq, Repr

/-- A node link: from an output socket of one node into an input socket of
another, as in bpy node_tree.links. -/
structure Link where
  fromNode : Nat
  fromSocket : String
  toNode : Nat
  toSocket : String
deriving DecidableEq, Repr

/-- A shading node.  `image` is the filepath of the image datablock assigned
to a TEX_IMAGE node (some "" for a freshly created in-memory image with an
empty filepath); `inputNames` lists the node's input socket names (used by the
alias-aware socket lookup); `colorValue` is the default_value of the node's
Color input (meaningful for EMISSION nodes). -/
structure GraphNode where
  id : Nat
  ntype : NodeType
  label : String := ""
  image : Option String := none
  inputNames : List String := []
  colorValue : Rat × Rat × Rat × Rat := (1, 1, 1, 1)
deriving DecidableEq, Repr

/-- A material shading graph: mat.node_tree. -/
structure NodeTree where
  nodes : List GraphNode
  links : List Link
deriving DecidableEq, Repr

/-- Well-formed graph: every link endpoint refers to an existing node. -/
def NodeTree.WFgraph (nt : NodeTree) : Prop :=
  ∀ l ∈ nt.links, (∃ n ∈ nt.nodes, n.id = l.fromNode) ∧ (∃ n ∈ nt.nodes, n.id = l.toNode)

instance (nt : NodeTree) : Decidable nt.WFgraph := by
  unfold NodeTree.WFgraph; infer_instance

/-- A fresh node id, strictly greater than every id in the tree (stands in for
Blender allocating a new node object distinct from all existing ones). -/
def freshId (nt : NodeTree) : Nat :=
  nt.nodes.foldr (fun n acc => max (n.id + 1) acc) 0

/-- nt.nodes.new(...): Blender appends the new node to the collection. -/
def NodeTree.addNode (nt : NodeTree) (n : GraphNode) : NodeTree :=
  { nt with nodes := nt.nodes ++ [n] }

/-- nt.nodes.remove(node): removes the node and every link attached to it. -/
def NodeTree.removeNode (nt : NodeTree) (i : Nat) : NodeTree :=
  { nodes := nt.nodes.filter (fun n => n.id != i),
    links := nt.links.filter (fun l => l.fromNode != i && l.toNode != i) }

/-- nt.links.new(from_socket, to_socket): appends a link. -/
def NodeTree.addLink (nt : NodeTree) (l : Link) : NodeTree :=
  { nt with links := nt.links ++ [l] }

/-- nt.links.remove(link): removes that one link. -/
def NodeTree.removeLink (nt : NodeTree) (l : Link) : NodeTree :=
  { nt with links := nt.links.erase l }

/-- socket.is_linked for the input socket (node, socketName). -/
def NodeTree.isLinked (nt : NodeTree) (node : Nat) (socket : String) : Bool :=
  nt.links.any (fun l => l.toNode == node && l.toSocket == socket)

/-- socket.links[0] for an input socket: the first link in the tree wired
into it (present iff the socket is linked). -/
def NodeTree.firstLinkInto (nt : NodeTree) (node : Nat) (socket : String) : Option Link :=
  nt.links.find? (fun l => l.toNode == node && l.toSocket == socket)

/-- emission.inputs['Color'].default_value = c, as a graph update. -/
def NodeTree.setColorValue (nt : NodeTree) (i : Nat) (c : Rat × Rat × Rat × Rat) : NodeTree :=
  { nt with nodes := nt.nodes.map (fun n => if n.id == i then { n with colorValue := c } else n) }

/-- HAIRCARD_OT_BakeTextures._get_bsdf_socket (src/__init__.py:462): find a
socket by the first of several possible names (4.0 compatibility). -/
def getBsdfSocket (node : GraphNode) (names : List String) : Option (Nat × String) :=
  match names with
  | [] => none
  | name :: rest =>
    if name ∈ node.inputNames then some (node.id, name)
    else getBsdfSocket node rest

/-- Source-socket choice for a BSDF_PRINCIPLED node in the SETUP scan
(src/__init__.py:523-534). -/
def sourceSocketForNode (mapName : String) (node : GraphNode) : Option (Nat × String) :=
  if node.ntype = NodeType.BSDF_PRINCIPLED then
    if mapName = "base_color" then some (node.id, "Base Color")
    else if mapName = "alpha" then some (node.id, "Alpha")
    else if mapName = "roughness" then some (node.id, "Roughness")
    else if mapName = "specular" then getBsdfSocket node ["Specular IOR Level", "Specular"]
    else if mapName = "metallic" then some (node.id, "Metallic")
    else none
  else none

/-- One iteration of the SETUP scan body: the BSDF choice, possibly overridden
by the normal-map special case (src/__init__.py:536-539). -/
def setupScanSocket (nt : NodeTree) (mapName : String) (node : GraphNode) : Option (Nat × String) :=
  if mapName = "normal" ∧ node.ntype = NodeType.NORMAL_MAP ∧ nt.isLinked node.id "Color" = true then
    some (node.id, "Color")
  else sourceSocketForNode mapName node

/-- The SETUP scan loop (src/__init__.py:522-547): the loop breaks at the
first node whose chosen socket is linked, returning the link's from-socket
(links[0] exists exactly when the socket is linked); at the end of every
non-breaking iteration source_socket is reset to None. -/
def findSourceSocket (nt : NodeTree) (mapName : String) : List GraphNode → Option (Nat × String)
  | [] => none
  | node :: rest =>
    match setupScanSocket nt mapName node with
    | some s =>
      match nt.firstLinkInto s.1 s.2 with
      | some l => some (l.fromNode, l.fromSocket)
      | none => findSourceSocket nt mapName rest
    | none => findSourceSocket nt mapName rest

/-- Default emission color when no extraction source is linked
(src/__init__.py:570-575). -/
def defaultBakeColor (mapName : String) : Rat × Rat × Rat × Rat :=
  if mapName = "roughness" then (1/2, 1/2, 1/2, 1)
  else if mapName = "alpha" then (1, 1, 1, 1)
  else if mapName = "normal" then (1/2, 1/2, 1, 1)
  else (0, 0, 0, 1)

/-- The bake sequence (src/__init__.py:430-437): (map_name, bake_type,
keyword-argument list). -/
def bake_sequence : List (String × String × List (String × String)) :=
  [("base_color", "DIFFUSE", [("use_color", "True")]),
   ("roughness", "ROUGHNESS", []),
   ("specular", "GLOSSY", [("use_color", "True")]),
   ("metallic", "GLOSSY", [("use_color", "True")]),
   ("alpha", "DIFFUSE", [("use_color", "False")]),
   ("normal", "NORMAL", [("normal_space", "TANGENT")])]

/-- The node type the BAKE-phase fast-path copy scan looks for
(src/__init__.py:606). -/
def targetNodeType (mapName : String) : NodeType :=
  if mapName = "normal" then NodeType.NORMAL_MAP else NodeType.BSDF_PRINCIPLED

/-- Socket choice inside the fast-path copy scan (src/__init__.py:610-616). -/
def bakeCopySocket (mapName : String) (node : GraphNode) : Option (Nat × String) :=
  if mapName = "normal" then some (node.id, "Color")
  else if mapName = "specular" then getBsdfSocket node ["Specular IOR Level", "Specular"]
  else if mapName = "metallic" then some (node.id, "Metallic")
  else none

/-- Body of one fast-path scan iteration once a node of the target type is
found (src/__init__.py:610-621): resolve the socket; if linked and its
upstream node is an image-texture node carrying an image, the image filepath
(bpy.path.abspath modelled as the identity, paths being absolute). -/
def copySourceFromNode (nt : NodeTree) (mapName : String) (node : GraphNode) : Option String :=
  match bakeCopySocket mapName node with
  | some sk =>
    match nt.firstLinkInto sk.1 sk.2 with
    | some l =>
      match nt.nodes.find? (fun n => n.id == l.fromNode) with
      | some linkNode =>
        if linkNode.ntype = NodeType.TEX_IMAGE then linkNode.image else none
      | none => none
    | none => none
  | none => none

/-- The fast-path copy scan loop (src/__init__.py:608-622): the break sits
inside the `if node.type == target_node_type` block, so the loop stops at the
FIRST node of the target type whether or not that node yields a source. -/
def scanCopySource (nt : NodeTree) (mapName : String) : List GraphNode → Option String
  | [] => none
  | node :: rest =>
    if node.ntype = targetNodeType mapName then copySourceFromNode nt mapName node
    else scanCopySource nt mapName rest

/-- src_path as computed at src/__init__.py:602-622: attempted only for the
three copy channels. -/
def fastCopyPath (mapName : String) (nt : NodeTree) : Option String :=
  if mapName ∈ (["normal", "specular", "metallic"] : List String) then
    scanCopySource nt mapName nt.nodes
  else none

/-- The filesystem: an association list path ↦ file bytes. -/
abbrev FSys := List (String × List Nat)

def fsLookup (fs : FSys) (p : String) : Option (List Nat) :=
  (fs.find? (fun e => e.1 == p)).map (fun e => e.2)

def fsWrite (fs : FSys) (p : String) (bytes : List Nat) : FSys :=
  (p, bytes) :: fs

/-- file_copied after the try: the fast path succeeds when a source path was
resolved, is non-empty (Python truthiness of src_path) and the file exists
(src/__init__.py:624-632). -/
def fileCopied (fs : FSys) (mapName : String) (nt : NodeTree) : Bool :=
  match fastCopyPath mapName nt with
  | some p => p != "" && (fsLookup fs p).isSome
  | none => false

/-- Output path of a bake step (src/__init__.py:625-627 and 643-645):
os.path.join(base_dir, mat.name, f"{obj.name}_{mat.name}_{map_name}.png"). -/
def bakeOutPath (baseDir objName matName mapName : String) : String :=
  baseDir ++ "/" ++ matName ++ "/" ++ objName ++ "_" ++ matName ++ "_" ++ mapName ++ ".png"

/-- A material: name, use_nodes flag and shading graph. -/
structure Material where
  name : String
  useNodes : Bool
  nodeTree : NodeTree
deriving DecidableEq, Repr

/-- self.current_setup (src/__init__.py:577-588): the handles created during
SETUP, consumed by BAKE.  The material and its node tree are recovered from
the state through matIndex. -/
structure SetupCtx where
  matIndex : Nat
  mapName : String
  imgName : String
  bakeTexId : Nat
  emissionId : Option Nat
  linkSurface : Option Link
  origLink : Option (Nat × String)
  surfInput : Option (Nat × String)
deriving DecidableEq, Repr

inductive BakePhase where
  | SETUP
  | BAKE
deriving DecidableEq, Repr

/-- The events the modal handler distinguishes: an ESC key press, a timer
tick, anything else. -/
inductive Event where
  | escPress
  | timerTick
  | other
deriving DecidableEq, Repr

inductive ModalResult where
  | RUNNING_MODAL
  | PASS_THROUGH
  | FINISHED
  | CANCELLED
deriving DecidableEq, Repr

/-- The operator + scene state during a run.  engine/cyclesSamples/usePass*
and fs are the scene-global pieces the operator touches; tempObjAlive and
meshEvalAlive track the transient object/mesh; renderCalls counts
bpy.ops.object.bake invocations. -/
structure ModalState where
  step : Nat
  bake_phase : BakePhase
  current_setup : Option SetupCtx
  materials : List (Option Material)
  total_steps : Nat
  baseDir : String
  objName : String
  bakeWidth : Int
  bakeHeight : Int
  engine : String
  prevEngine : String
  cyclesSamples : Int
  usePassDirect : Bool
  usePassIndirect : Bool
  usePassColor : Bool
  tempObjAlive : Bool
  meshEvalAlive : Bool
  timerAlive : Bool
  bakeProgress : Rat
  fs : FSys
  renderCalls : Nat
deriving DecidableEq, Repr

/-- HAIRCARD_OT_BakeTextures._cleanup (src/__init__.py:449-460): remove the
timer, restore the engine, destroy the transient object and mesh, reset
progress.  Note: cycles samples are NOT restored, and the current step's
graph edits are NOT rolled back here. -/
def cleanup (s : ModalState) : ModalState :=
  { s with timerAlive := false,
           engine := s.prevEngine,
           tempObjAlive := false,
           meshEvalAlive := false,
           bakeProgress := 0 }

/-- The graph-rewiring part of a SETUP step (src/__init__.py:504-588) on one
material graph, returning the rewired graph and the step context: add the
bake image-texture node, locate the output node, scan for the source socket,
insert the emission rig (detaching and remembering any original Surface
link), and either wire the source into the emission color or set the
channel's default constant. -/
def bakeTexNode (g : NodeTree) : GraphNode :=
  { id := freshId g, ntype := NodeType.TEX_IMAGE, image := some "", inputNames := ["Vector"] }

def emissionNode (nt1 : NodeTree) : GraphNode :=
  { id := freshId nt1, ntype := NodeType.EMISSION, inputNames := ["Color", "Strength"] }

/-- out_node = next(n for n in nt.nodes if n.type == 'OUTPUT_MATERIAL')
(src/__init__.py:515). -/
def findOutNode (nt : NodeTree) : Option GraphNode :=
  nt.nodes.find? (fun n => n.ntype == NodeType.OUTPUT_MATERIAL)

def setupGraphAndCtx (matIdx : Nat) (mapName objName matName : String) (g : NodeTree) :
    NodeTree × SetupCtx :=
  let imgName := objName ++ "_" ++ matName ++ "_" ++ mapName
  let bakeTex := bakeTexNode g
  let nt1 := g.addNode bakeTex
  let sourceSocket := findSourceSocket nt1 mapName nt1.nodes
  match findOutNode nt1 with
  | none =>
    (nt1,
     { matIndex := matIdx, mapName := mapName, imgName := imgName, bakeTexId := bakeTex.id,
       emissionId := none, linkSurface := none, origLink := none, surfInput := none })
  | some outNode =>
    let emission := emissionNode nt1
    let nt2 := nt1.addNode emission
    let origLinkOpt := nt2.firstLinkInto outNode.id "Surface"
    let nt3 :=
      match origLinkOpt with
      | some l0 => nt2.removeLink l0
      | none => nt2
    let linkSurface : Link :=
      { fromNode := emission.id, fromSocket := "Emission",
        toNode := outNode.id, toSocket := "Surface" }
    let nt4 := nt3.addLink linkSurface
    let nt5 :=
      match sourceSocket with
      | some src => nt4.addLink { fromNode := src.1, fromSocket := src.2,
                                  toNode := emission.id, toSocket := "Color" }
      | none => nt4.setColorValue emission.id (defaultBakeColor mapName)
    (nt5,
     { matIndex := matIdx, mapName := mapName, imgName := imgName, bakeTexId := bakeTex.id,
       emissionId := some emission.id,
       linkSurface := some linkSurface,
       origLink := origLinkOpt.map (fun l => (l.fromNode, l.fromSocket)),
       surfInput := some (outNode.id, "Surface") })

/-- A SETUP step on a usable material: rewire its graph and store
current_setup; transition to BAKE. -/
def doSetupMat (s : ModalState) (matIdx : Nat) (mapName : String) (mat : Material) : ModalState :=
  let r := setupGraphAndCtx matIdx mapName s.objName mat.name mat.nodeTree
  { s with materials := s.materials.set matIdx (some { mat with nodeTree := r.1 }),
           current_setup := some r.2,
           bake_phase := BakePhase.BAKE }

/-- The node cleanup at the end of a BAKE step (src/__init__.py:660-669):
remove the emission→Surface link, restore the original Surface link if one
was detached, remove the emission node (which drops its remaining links) and
the bake texture node. -/
def bakeCleanupGraph (nt : NodeTree) (ctx : SetupCtx) : NodeTree :=
  let nt1 :=
    match ctx.linkSurface with
    | some l => nt.removeLink l
    | none => nt
  let nt2 :=
    match ctx.origLink, ctx.surfInput with
    | some src, some inp => nt1.addLink { fromNode := src.1, fromSocket := src.2,
                                          toNode := inp.1, toSocket := inp.2 }
    | _, _ => nt1
  let nt3 :=
    match ctx.emissionId with
    | some e => nt2.removeNode e
    | none => nt2
  nt3.removeNode ctx.bakeTexId

/-- Placeholder for an impossible missing slot during BAKE (the running step's
material was read in SETUP). -/
def noneMaterial : Material :=
  { name := "", useNodes := false, nodeTree := { nodes := [], links := [] } }

/-- A BAKE step (src/__init__.py:596-677): try the fast-path file copy; on
failure set the emit-bake pass flags, invoke the render backend and save the
image (render is the uninterpreted backend: the bytes persisted for this
graph and channel); then roll the graph back, advance the step and return to
SETUP. -/
def doBake (render : NodeTree → String → List Nat) (s : ModalState) (ctx : SetupCtx) :
    ModalState :=
  let mat := (s.materials.getD ctx.matIndex none).getD noneMaterial
  let nt := mat.nodeTree
  let dst := bakeOutPath s.baseDir s.objName mat.name ctx.mapName
  let renderBranch : ModalState :=
    { s with usePassDirect := false, usePassIndirect := false, usePassColor := true,
             renderCalls := s.renderCalls + 1,
             fs := fsWrite s.fs dst (render nt ctx.mapName) }
  let s1 :=
    match fastCopyPath ctx.mapName nt with
    | some p =>
      if p != "" && (fsLookup s.fs p).isSome then
        { s with fs := fsWrite s.fs dst ((fsLookup s.fs p).getD []) }
      else renderBranch
    | none => renderBranch
  { s1 with materials := s1.materials.set ctx.matIndex
              (some { mat with nodeTree := bakeCleanupGraph nt ctx }),
            step := s.step + 1,
            bakeProgress := ((s.step + 1 : Nat) : Rat) / ((max s.total_steps 1 : Nat) : Rat),
            bake_phase := BakePhase.SETUP }

/-- The SETUP branch of the modal handler (src/__init__.py:483-591). -/
def setupTick (s : ModalState) : ModalResult × ModalState :=
  if s.step ≥ s.total_steps then (ModalResult.FINISHED, cleanup s)
  else
    let matIdx := s.step / bake_sequence.length
    let passIdx := s.step % bake_sequence.length
    let mapName := (bake_sequence.getD passIdx ("", "", [])).1
    match s.materials.getD matIdx none with
    | none => (ModalResult.RUNNING_MODAL, { s with step := s.step + 1 })
    | some mat =>
      if mat.useNodes then (ModalResult.RUNNING_MODAL, doSetupMat s matIdx mapName mat)
      else (ModalResult.RUNNING_MODAL, { s with step := s.step + 1 })

/-- The BAKE branch of the modal handler (src/__init__.py:596-677).  A BAKE
phase with no current_setup cannot arise from a run started by invoke. -/
def bakeTick (render : NodeTree → String → List Nat) (s : ModalState) :
    ModalResult × ModalState :=
  match s.current_setup with
  | some ctx => (ModalResult.RUNNING_MODAL, doBake render s ctx)
  | none => (ModalResult.RUNNING_MODAL, s)

def timerStep (render : NodeTree → String → List Nat) (s : ModalState) :
    ModalResult × ModalState :=
  match s.bake_phase with
  | BakePhase.SETUP => setupTick s
  | BakePhase.BAKE => bakeTick render s

/-- HAIRCARD_OT_BakeTextures.modal (src/__init__.py:469-677): ESC cancels via
_cleanup; non-timer events pass through; timer events advance the state
machine by one transition. -/
def modal (render : NodeTree → String → List Nat) (s : ModalState) (ev : Event) :
    ModalResult × ModalState :=
  if ev = Event.escPress then (ModalResult.CANCELLED, cleanup s)
  else if ev = Event.timerTick then timerStep render s
  else (ModalResult.PASS_THROUGH, s)

/-- Drive the modal handler over a sequence of events, stopping at the first
terminal result (FINISHED or CANCELLED), as the host window manager does. -/
def runEvents (render : NodeTree → String → List Nat) :
    ModalState → List Event → ModalState × Option ModalResult
  | s, [] => (s, none)
  | s, ev :: rest =>
    if (modal render s ev).1 = ModalResult.FINISHED ∨
        (modal render s ev).1 = ModalResult.CANCELLED then
      ((modal render s ev).2, some (modal render s ev).1)
    else runEvents render (modal render s ev).2 rest

def timerTicks (n : Nat) : List Event := List.replicate n Event.timerTick

/-- True when every ESC in the (consumed prefix of the) event sequence is
delivered while the machine sits in the SETUP phase, i.e. no step is
mid-flight between SETUP and BAKE. -/
def escSafeRun (render : NodeTree → String → List Nat) : ModalState → List Event → Bool
  | _, [] => true
  | s, ev :: rest =>
    (if ev = Event.escPress then s.bake_phase == BakePhase.SETUP else true) &&
    (if (modal render s ev).1 = ModalResult.FINISHED ∨
        (modal render s ev).1 = ModalResult.CANCELLED then true
     else escSafeRun render (modal render s ev).2 rest)

/-- The operator properties read by invoke. -/
structure Props where
  bake_width : Int
  bake_height : Int
  bake_path : String
deriving DecidableEq, Repr

/-- context.object: the selected source object (name and material slots). -/
structure SceneObj where
  name : String
  materials : List (Option Material)
deriving DecidableEq, Repr

/-- The scene-global state invoke reads and writes: render engine, cycles
sample count, filesystem and the set of existing directories. -/
structure Scene where
  engine : String
  cyclesSamples : Int
  fs : FSys
  dirs : List String
deriving DecidableEq, Repr

inductive InvokeResult where
  | cancelled (scene : Scene)
  | running (s : ModalState)
deriving DecidableEq, Repr

def InvokeResult.isRunning : InvokeResult → Bool
  | cancelled _ => false
  | running _ => true

/-- HAIRCARD_OT_BakeTextures.invoke (src/__init__.py:378-447).  The
precondition check is Python's `not (w and h) or not os.path.isdir(out) or
not self.obj`: it rejects a ZERO width or height (integer truthiness), a
missing output directory and a missing object, and returns CANCELLED before
any mutation; otherwise it snapshots the engine, forces Cycles at 16 samples,
creates the transient object and mesh, fixes the bake sequence and starts the
modal timer.  UV-attribute conversion and the makedirs of base_dir are
host-side effects not modelled. -/
def invoke (props : Props) (obj : Option SceneObj) (scene : Scene) : InvokeResult :=
  let w := props.bake_width
  let h := props.bake_height
  let out := props.bake_path
  if w = 0 ∨ h = 0 ∨ out ∉ scene.dirs ∨ obj.isNone then
    InvokeResult.cancelled scene
  else
    match obj with
    | none => InvokeResult.cancelled scene
    | some o =>
      InvokeResult.running
        { step := 0, bake_phase := BakePhase.SETUP, current_setup := none,
          materials := o.materials,
          total_steps := o.materials.length * bake_sequence.length,
          baseDir := out ++ "/" ++ o.name ++ "_textures",
          objName := o.name,
          bakeWidth := w, bakeHeight := h,
          engine := "CYCLES", prevEngine := scene.engine,
          cyclesSamples := 16,
          usePassDirect := false, usePassIndirect := false, usePassColor := false,
          tempObjAlive := true, meshEvalAlive := true, timerAlive := true,
          bakeProgress := 0, fs := scene.fs, renderCalls := 0 }

def invokeRun (props : Props) (obj : Option SceneObj) (scene : Scene) : Option ModalState :=
  match invoke props obj scene with
  | InvokeResult.running s => some s
  | InvokeResult.cancelled _ => none

/-- The node tree of material slot i of a state (empty tree when the slot is
empty or out of range). -/
def matTreeAt (s : ModalState) (i : Nat) : NodeTree :=
  match s.materials.getD i none with
  | some m => m.nodeTree
  | none => { nodes := [], links := [] }

/-! ### Folder resolver and texture swap engine (HAIRCARD_OT_SwapTextures) -/

def lowerStr (s : String) : String := String.mk (s.toList.map Char.toLower)

def isPrefixL : List Char → List Char → Bool
  | [], _ => true
  | _ :: _, [] => false
  | a :: as, b :: bs => a == b && isPrefixL as bs

def isInfixL (needle : List Char) : List Char → Bool
  | [] => needle.isEmpty
  | b :: bs => isPrefixL needle (b :: bs) || isInfixL needle bs

/-- Python's `k.lower() in f.lower()`: case-insensitive substring test. -/
def containsCI (name key : String) : Bool :=
  isInfixL (lowerStr key).toList (lowerStr name).toList

/-- The swap channel keywords, in the dict insertion order of
src/__init__.py:319. -/
def swapKeywords : List String := ["Diffuse", "Roughness", "Specular", "Normal", "Depth", "Startmask"]

/-- The first keyword (in dict order) contained in a file name. -/
def firstKeyword (f : String) : Option String :=
  swapKeywords.find? (fun k => containsCI f k)

/-- The inner loop of src/__init__.py:326-329 for one file f: walk the
channel dict in order, assign the file to the FIRST matching keyword
(overwriting any earlier assignment to that keyword) and break. -/
def assignChannelFile (folder f : String) :
    List (String × Option String) → List (String × Option String)
  | [] => []
  | (k, v) :: rest =>
    if containsCI f k then (k, some (folder ++ "/" ++ f)) :: rest
    else (k, v) :: assignChannelFile folder f rest

/-- The channel-file resolution loop of src/__init__.py:319-329: every
directory entry, in listing order, is pushed through the keyword dict. -/
def resolveChannelFiles (folder : String) (files : List String) :
    List (String × Option String) :=
  files.foldl (fun expected f => assignChannelFile folder f expected)
    (swapKeywords.map (fun t => (t, none)))

/-- expected[k] lookup in the resolved mapping. -/
def lookupChannel (m : List (String × Option String)) (k : String) : Option String :=
  (m.find? (fun e => e.1 == k)).bind (fun e => e.2)

/-- Modelled from the spec: the folder resolver the specification describes,
which maps each channel keyword to the FIRST directory entry, in native
listing order, whose name contains the keyword case-insensitively.  Kept for
comparison with resolveChannelFiles, the resolver the code implements. -/
def resolveChannelFilesSpecOrder (folder : String) (files : List String) (k : String) :
    Option String :=
  (files.find? (fun f => containsCI f k)).map (fun f => folder ++ "/" ++ f)

/-- A texture slot node seen by the swap engine: its type, channel label and
currently assigned image path. -/
structure SwapNode where
  ntype : NodeType
  label : String
  image : Option String
deriving DecidableEq, Repr

/-- One successful load performed by the swap loop: the slot label, the file
loaded into it, the colorspace assigned to the image and the image's native
pixel dimensions. -/
structure SwapEvent where
  label : String
  filepath : String
  colorspace : String
  w : Int
  h : Int
deriving DecidableEq, Repr

/-- Running state of the swap loop: rebuilt node list, swapped-count, the
bake size properties and the log of successful loads. -/
structure SwapState where
  nodes : List SwapNode
  cnt : Nat
  bake_width : Int
  bake_height : Int
  log : List SwapEvent
deriving DecidableEq, Repr

/-- The image database: path ↦ native pixel size.  A file loads successfully
iff present (load failures are modelled only as absence). -/
def imgSize (db : List (String × Int × Int)) (p : String) : Option (Int × Int) :=
  (db.find? (fun e => e.1 == p)).map (fun e => e.2)

/-- One iteration of the swap loop (src/__init__.py:337-354): an image-texture
node whose label is a key of the mapping, whose mapped file exists, gets the
file loaded, its colorspace set to sRGB for Diffuse and Non-Color otherwise,
the count bumped, and — for Diffuse — the bake size updated to the image's
native pixel dimensions. -/
def swapExecuteNode (expected : List (String × Option String))
    (db : List (String × Int × Int)) (st : SwapState) (node : SwapNode) : SwapState :=
  if node.ntype = NodeType.TEX_IMAGE ∧ (expected.find? (fun e => e.1 == node.label)).isSome then
    match lookupChannel expected node.label with
    | some fp =>
      match imgSize db fp with
      | some sz =>
        let cs := if node.label = "Diffuse" then "sRGB" else "Non-Color"
        { nodes := st.nodes ++ [{ node with image := some fp }],
          cnt := st.cnt + 1,
          bake_width := if node.label = "Diffuse" then sz.1 else st.bake_width,
          bake_height := if node.label = "Diffuse" then sz.2 else st.bake_height,
          log := st.log ++ [{ label := node.label, filepath := fp, colorspace := cs,
                              w := sz.1, h := sz.2 }] }
      | none => { st with nodes := st.nodes ++ [node] }
    | none => { st with nodes := st.nodes ++ [node] }
  else { st with nodes := st.nodes ++ [node] }

/-- HAIRCARD_OT_SwapTextures.execute's swap loop (src/__init__.py:336-354)
over a material's nodes, starting from the current bake size properties. -/
def swapExecute (expected : List (String × Option String))
    (db : List (String × Int × Int)) (nodes : List SwapNode) (w0 h0 : Int) : SwapState :=
  nodes.foldl (swapExecuteNode expected db)
    ({ nodes := [], cnt := 0, bake_width := w0, bake_height := h0, log := [] })

/-! ### Equivalences and invariants used by the rollback theorems -/

/-- Structural equivalence of optional material slots: the slot is present on
both sides with the same name and use_nodes flag, the same node list and a
permutation of the links (hence equal node and link sets), or absent on
both. -/
def OMatEquiv : Option Material → Option Material → Prop
  | none, none => True
  | some a, some b =>
    a.name = b.name ∧ a.useNodes = b.useNodes ∧
    b.nodeTree.nodes = a.nodeTree.nodes ∧ b.nodeTree.links.Perm a.nodeTree.links
  | _, _ => False

def OWF : Option Material → Prop
  | none => True
  | some m => m.nodeTree.WFgraph

instance : (o : Option Material) → Decidable (OWF o)
  | none => Decidable.isTrue trivial
  | some m => inferInstanceAs (Decidable m.nodeTree.WFgraph)

/-- Slotwise structural equivalence of two material lists. -/
def MatsEquiv (a b : List (Option Material)) : Prop :=
  ∀ i, OMatEquiv (a.getD i none) (b.getD i none)

def MatsWF (b : List (Option Material)) : Prop :=
  ∀ i, OWF (b.getD i none)

/-- The invariant holding between steps: the machine sits in SETUP and every
material slot is structurally equivalent to its pre-run state and
well-formed. -/
def SetupInv (m0 : List (Option Material)) (s : ModalState) : Prop :=
  s.bake_phase = BakePhase.SETUP ∧ MatsEquiv m0 s.materials ∧ MatsWF s.materials

/-- The invariant of a state mid-flight between SETUP and BAKE: it arose from
a between-steps state by one SETUP transition on a present, node-based
material. -/
def BakeInv (m0 : List (Option Material)) (s : ModalState) : Prop :=
  ∃ sp idx mapName mat,
    SetupInv m0 sp ∧ sp.materials.getD idx none = some mat ∧ mat.useNodes = true ∧
    s = doSetupMat sp idx mapName mat

def RunInv (m0 : List (Option Material)) (s : ModalState) : Prop :=
  SetupInv m0 s ∨ BakeInv m0 s

/-! ### Concrete fixtures used by witnesses and counterexamples -/

/-- A trivial render oracle for concrete runs. -/
def render0 : NodeTree → String → List Nat := fun _ _ => []

def emptyTree : NodeTree := { nodes := [], links := [] }

def matA : Material := { name := "MatA", useNodes := true, nodeTree := emptyTree }

def matB : Material := { name := "MatB", useNodes := true, nodeTree := emptyTree }

/-- A material whose graph is a single output node, no links. -/
def matC : Material :=
  { name := "MatC", useNodes := true,
    nodeTree := { nodes := [{ id := 0, ntype := NodeType.OUTPUT_MATERIAL,
                              inputNames := ["Surface", "Volume", "Displacement"] }],
                  links := [] } }

def props2048 : Props := { bake_width := 2048, bake_height := 2048, bake_path := "/out" }

def scene0 : Scene :=
  { engine := "BLENDER_EEVEE_NEXT", cyclesSamples := 4, fs := [], dirs := ["/out"] }

def obj2 : SceneObj := { name := "Obj", materials := [some matA, some matB] }

def objC : SceneObj := { name := "Obj", materials := [some matC] }

def dummyModalState : ModalState :=
  { step := 0, bake_phase := BakePhase.SETUP, current_setup := none, materials := [],
    total_steps := 0, baseDir := "", objName := "", bakeWidth := 0, bakeHeight := 0,
    engine := "", prevEngine := "", cyclesSamples := 0,
    usePassDirect := false, usePassIndirect := false, usePassColor := false,
    tempObjAlive := false, meshEvalAlive := false, timerAlive := false,
    bakeProgress := 0, fs := [], renderCalls := 0 }

/-- The state of a freshly started run over obj2 (2 materials). -/
def c5s0 : ModalState := (invokeRun props2048 (some obj2) scene0).getD dummyModalState

/-- The state of a freshly started run over objC (1 material, output node only). -/
def c1s0 : ModalState := (invokeRun props2048 (some objC) scene0).getD dummyModalState

/-- A material whose first principled BSDF has its Metallic input fed by a
file-backed image texture node. -/
def matD : Material :=
  { name := "MatD", useNodes := true,
    nodeTree :=
      { nodes := [{ id := 1, ntype := NodeType.BSDF_PRINCIPLED,
                    inputNames := ["Base Color", "Metallic", "Roughness", "Alpha",
                                   "Specular IOR Level"] },
                  { id := 2, ntype := NodeType.TEX_IMAGE, image := some "/tex/metal.png" }],
        links := [{ fromNode := 2, fromSocket := "Color", toNode := 1, toSocket := "Metallic" }] } }

/-- A BAKE-phase step context over matD's metallic channel. -/
def ctxD : SetupCtx :=
  { matIndex := 0, mapName := "metallic", imgName := "Obj_MatD_metallic", bakeTexId := 99,
    emissionId := none, linkSurface := none, origLink := none, surfInput := none }

/-- A mid-BAKE state over matD with the metallic source file on disk. -/
def sD : ModalState :=
  { dummyModalState with
      bake_phase := BakePhase.BAKE, current_setup := some ctxD,
      materials := [some matD], total_steps := 6,
      baseDir := "/out/Obj_textures", objName := "Obj",
      fs := [("/tex/metal.png", [7, 7, 7])] }

/-- A SETUP-phase state over matC used to exercise the default-color path. -/
def spC7 : ModalState :=
  { dummyModalState with materials := [some matC], objName := "Obj", total_steps := 6 }

/-- Nodes for the first-node fast-path scan counter-scenario: a non-target
node, then a principled BSDF with an unlinked Metallic socket, then a second
principled BSDF whose Metallic IS fed by an existing file-backed image. -/
def preC10 : List GraphNode := [{ id := 0, ntype := NodeType.EMISSION }]

def nC10 : GraphNode :=
  { id := 1, ntype := NodeType.BSDF_PRINCIPLED,
    inputNames := ["Base Color", "Metallic", "Roughness", "Alpha", "Specular IOR Level"] }

def postC10 : List GraphNode :=
  [{ id := 2, ntype := NodeType.BSDF_PRINCIPLED,
     inputNames := ["Base Color", "Metallic", "Roughness", "Alpha", "Specular IOR Level"] },
   { id := 3, ntype := NodeType.TEX_IMAGE, image := some "/tex/m2.png" }]

def ntC10 : NodeTree :=
  { nodes := preC10 ++ nC10 :: postC10,
    links := [{ fromNode := 3, fromSocket := "Color", toNode := 2, toSocket := "Metallic" }] }

/-! ## List helper lemmas -/

theorem getD_of_le {α} (l : List α) (i : Nat) (d : α) (h : l.length ≤ i) : l.getD i d = d := by
  simp [List.getD_eq_getElem?_getD, List.getElem?_eq_none h]

theorem getD_set_self {α} (l : List α) (i : Nat) (v d : α) (h : i < l.length) :
    (l.set i v).getD i d = v := by
  simp [List.getD_eq_getElem?_getD, List.getElem?_set_eq_of_lt v h]

theorem getD_set_ne {α} (l : List α) (i j : Nat) (v d : α) (h : i ≠ j) :
    (l.set i v).getD j d = l.getD j d := by
  simp [List.getD_eq_getElem?_getD, List.getElem?_set_ne h]

theorem lt_length_of_getD_some (l : List (Option Material)) (i : Nat) (m : Material)
    (h : l.getD i none = some m) : i < l.length := by
  by_contra hcon
  rw [getD_of_le l i none (Nat.le_of_not_lt hcon)] at h
  exact Option.noConfusion h

theorem map_eq_self_of_id {α} (f : α → α) (l : List α) (h : ∀ a ∈ l, f a = a) :
    l.map f = l := by
  conv_rhs => rw [← List.map_id l]
  exact List.map_congr_left h

theorem filter_eq_self_of_true {α} (p : α → Bool) (l : List α) (h : ∀ a ∈ l, p a = true) :
    l.filter p = l :=
  List.filter_eq_self.mpr h

theorem filter_eq_nil_of_false {α} (p : α → Bool) (l : List α) (h : ∀ a ∈ l, p a = false) :
    l.filter p = [] :=
  List.filter_eq_nil_iff.mpr (by intro a ha; simp [h a ha])

theorem find?_append_of_none {α} (p : α → Bool) (l₁ l₂ : List α) (h : l₁.find? p = none) :
    (l₁ ++ l₂).find? p = l₂.find? p := by
  rw [List.find?_append, h]; rfl

theorem find?_none_of_false {α} (p : α → Bool) (l : List α) (h : ∀ a ∈ l, p a = false) :
    l.find? p = none :=
  List.find?_eq_none.mpr (by intro a ha; simp [h a ha])

/-! ## Fresh-id and well-formedness facts -/

theorem freshId_gt (nt : NodeTree) : ∀ n ∈ nt.nodes, n.id < freshId nt := by
  unfold freshId
  induction nt.nodes with
  | nil => intro n h; exact absurd h (List.not_mem_nil n)
  | cons a t ih =>
    intro n h
    rcases List.mem_cons.mp h with h1 | h2
    · subst h1
      exact Nat.lt_of_lt_of_le (Nat.lt_succ_self n.id) (Nat.le_max_left _ _)
    · exact Nat.lt_of_lt_of_le (ih n h2) (Nat.le_max_right _ _)

theorem wf_link_bounds (nt : NodeTree) (hwf : nt.WFgraph) :
    ∀ l ∈ nt.links, l.fromNode < freshId nt ∧ l.toNode < freshId nt := by
  intro l hl
  obtain ⟨⟨n1, hn1, he1⟩, ⟨n2, hn2, he2⟩⟩ := hwf l hl
  exact ⟨he1 ▸ freshId_gt nt n1 hn1, he2 ▸ freshId_gt nt n2 hn2⟩

/-! ## Projection lemmas for the graph operations -/

@[simp] theorem addNode_nodes (nt : NodeTree) (n : GraphNode) :
    (nt.addNode n).nodes = nt.nodes ++ [n] := rfl

@[simp] theorem addNode_links (nt : NodeTree) (n : GraphNode) :
    (nt.addNode n).links = nt.links := rfl

@[simp] theorem addLink_nodes (nt : NodeTree) (l : Link) :
    (nt.addLink l).nodes = nt.nodes := rfl

@[simp] theorem addLink_links (nt : NodeTree) (l : Link) :
    (nt.addLink l).links = nt.links ++ [l] := rfl

@[simp] theorem removeLink_nodes (nt : NodeTree) (l : Link) :
    (nt.removeLink l).nodes = nt.nodes := rfl

@[simp] theorem removeLink_links (nt : NodeTree) (l : Link) :
    (nt.removeLink l).links = nt.links.erase l := rfl

@[simp] theorem removeNode_nodes (nt : NodeTree) (i : Nat) :
    (nt.removeNode i).nodes = nt.nodes.filter (fun n => n.id != i) := rfl

@[simp] theorem removeNode_links (nt : NodeTree) (i : Nat) :
    (nt.removeNode i).links = nt.links.filter (fun l => l.fromNode != i && l.toNode != i) := rfl

@[simp] theorem setColorValue_nodes (nt : NodeTree) (i : Nat) (c : Rat × Rat × Rat × Rat) :
    (nt.setColorValue i c).nodes =
      nt.nodes.map (fun n => if n.id == i then { n with colorValue := c } else n) := rfl

@[simp] theorem setColorValue_links (nt : NodeTree) (i : Nat) (c : Rat × Rat × Rat × Rat) :
    (nt.setColorValue i c).links = nt.links := rfl

@[simp] theorem bakeTexNode_id (g : NodeTree) : (bakeTexNode g).id = freshId g := rfl

@[simp] theorem emissionNode_id (nt : NodeTree) : (emissionNode nt).id = freshId nt := rfl

@[simp] theorem firstLinkInto_eq (nt : NodeTree) (a : Nat) (b : String) :
    nt.firstLinkInto a b = nt.links.find? (fun l => l.toNode == a && l.toSocket == b) := rfl

/-! ## Filter helpers for node and link lists -/

theorem filter_nodes_lt (l : List GraphNode) (i : Nat) (h : ∀ n ∈ l, n.id < i) :
    l.filter (fun n => n.id != i) = l :=
  filter_eq_self_of_true _ _ (fun n hn => bne_iff_ne.mpr (Nat.ne_of_lt (h n hn)))

theorem filter_links_lt (l : List Link) (i : Nat)
    (h : ∀ x ∈ l, x.fromNode < i ∧ x.toNode < i) :
    l.filter (fun x => x.fromNode != i && x.toNode != i) = l :=
  filter_eq_self_of_true _ _ (fun x hx => by
    have h1 := (h x hx).1
    have h2 := (h x hx).2
    simp [bne_iff_ne.mpr (Nat.ne_of_lt h1), bne_iff_ne.mpr (Nat.ne_of_lt h2)])

/-- The one-step structural rollback at the heart of the orchestrator: on a
well-formed graph, the BAKE-phase node cleanup applied to the SETUP-phase
rewiring restores the node list exactly and the link list up to permutation
(in particular, node and link sets are restored). -/
theorem setup_bake_graph_rollback (matIdx : Nat) (mapName objName matName : String)
    (g : NodeTree) (hwf : g.WFgraph) :
    (bakeCleanupGraph (setupGraphAndCtx matIdx mapName objName matName g).1
        (setupGraphAndCtx matIdx mapName objName matName g).2).nodes = g.nodes ∧
    List.Perm (bakeCleanupGraph (setupGraphAndCtx matIdx mapName objName matName g).1
        (setupGraphAndCtx matIdx mapName objName matName g).2).links g.links := by
  have hgn : ∀ n ∈ g.nodes, n.id < freshId g := freshId_gt g
  have hgl : ∀ l ∈ g.links, l.fromNode < freshId g ∧ l.toNode < freshId g :=
    wf_link_bounds g hwf
  have hFE : freshId g < freshId (g.addNode (bakeTexNode g)) := by
    have hmem : bakeTexNode g ∈ (g.addNode (bakeTexNode g)).nodes := by simp
    simpa using freshId_gt (g.addNode (bakeTexNode g)) (bakeTexNode g) hmem
  simp only [setupGraphAndCtx]
  cases hout : findOutNode (g.addNode (bakeTexNode g)) with
  | none =>
    simp only [bakeCleanupGraph, removeNode_nodes, removeNode_links, addNode_nodes,
      addNode_links, bakeTexNode_id]
    constructor
    · rw [List.filter_append]
      rw [filter_nodes_lt g.nodes (freshId g) hgn]
      simp
    · rw [filter_links_lt g.links (freshId g) hgl]
  | some out =>
    have hout2 : (g.addNode (bakeTexNode g)).nodes.find?
        (fun n => n.ntype == NodeType.OUTPUT_MATERIAL) = some out := hout
    have houtmem : out ∈ g.nodes ++ [bakeTexNode g] := List.mem_of_find?_eq_some hout2
    have houttype : out.ntype = NodeType.OUTPUT_MATERIAL := by
      have := List.find?_some hout2
      simpa using this
    have houtg : out ∈ g.nodes := by
      rcases List.mem_append.mp houtmem with h | h
      · exact h
      · exfalso
        have hbe : out = bakeTexNode g := by simpa using h
        rw [hbe] at houttype
        exact absurd houttype (by simp [bakeTexNode])
    have houtid : out.id < freshId g := hgn out houtg
    have hglE : ∀ l ∈ g.links,
        l.fromNode < freshId (g.addNode (bakeTexNode g)) ∧
        l.toNode < freshId (g.addNode (bakeTexNode g)) :=
      fun l hl => ⟨lt_trans (hgl l hl).1 hFE, lt_trans (hgl l hl).2 hFE⟩
    have hidlt : ∀ n ∈ g.nodes ++ [bakeTexNode g],
        n.id < freshId (g.addNode (bakeTexNode g)) := by
      intro n hn
      rcases List.mem_append.mp hn with h | h
      · exact lt_trans (hgn n h) hFE
      · have hnb : n = bakeTexNode g := by simpa using h
        rw [hnb]; simpa using hFE
    have hnodesE : ∀ srcnodes : List GraphNode,
        srcnodes = g.nodes ++ [bakeTexNode g] →
        (srcnodes.filter
          (fun n => n.id != freshId (g.addNode (bakeTexNode g)))).filter
            (fun n => n.id != freshId g) = g.nodes := by
      intro srcnodes hsn
      subst hsn
      rw [filter_nodes_lt _ _ hidlt, List.filter_append,
        filter_nodes_lt g.nodes (freshId g) hgn]
      simp
    have hLSnot : ∀ ls : Link, ls.fromNode = freshId (g.addNode (bakeTexNode g)) →
        ls ∉ g.links := by
      intro ls hfrom hmem
      have := (hglE ls hmem).1
      rw [hfrom] at this
      exact absurd this (Nat.lt_irrefl _)
    have hfused : g.nodes.filter
        (fun a => a.id != freshId g && a.id != freshId (g.addNode (bakeTexNode g))) =
        g.nodes :=
      filter_eq_self_of_true _ _ (fun n hn => by
        simp [bne_iff_ne.mpr (Nat.ne_of_lt (hgn n hn)),
          bne_iff_ne.mpr (Nat.ne_of_lt (lt_trans (hgn n hn) hFE))])
    have hmap2 : g.nodes.map
        (fun n => if n.id = freshId (g.addNode (bakeTexNode g)) then
          { n with colorValue := defaultBakeColor mapName } else n) = g.nodes :=
      map_eq_self_of_id _ _ (fun n hn => by
        simp [Nat.ne_of_lt (lt_trans (hgn n hn) hFE)])
    have hfilterFl : g.links.filter
        (fun l => l.fromNode != freshId g && l.toNode != freshId g) = g.links :=
      filter_links_lt g.links _ hgl
    have hfilterEl : g.links.filter
        (fun l => l.fromNode != freshId (g.addNode (bakeTexNode g)) &&
          l.toNode != freshId (g.addNode (bakeTexNode g))) = g.links :=
      filter_links_lt g.links _ hglE
    cases horig : ((g.addNode (bakeTexNode g)).addNode
        (emissionNode (g.addNode (bakeTexNode g)))).firstLinkInto out.id "Surface" with
    | none =>
      cases hsrc : findSourceSocket (g.addNode (bakeTexNode g)) mapName
          (g.addNode (bakeTexNode g)).nodes with
      | none =>
        simp only [horig, hsrc, bakeCleanupGraph, Option.map_none', removeLink_links,
          removeLink_nodes, removeNode_nodes, removeNode_links, addLink_links, addLink_nodes,
          addNode_nodes, addNode_links, setColorValue_nodes, setColorValue_links,
          bakeTexNode_id, emissionNode_id]
        constructor
        · simp [hmap2, hfused, Nat.ne_of_lt hFE]
        · rw [List.erase_append_right _ (hLSnot _ rfl)]
          simp only [List.erase_cons_head, List.append_nil, hfilterEl, hfilterFl]
          exact List.Perm.refl _
      | some src =>
        simp only [horig, hsrc, bakeCleanupGraph, Option.map_none', removeLink_links,
          removeLink_nodes, removeNode_nodes, removeNode_links, addLink_links, addLink_nodes,
          addNode_nodes, addNode_links, setColorValue_nodes, setColorValue_links,
          bakeTexNode_id, emissionNode_id]
        constructor
        · simp [hmap2, hfused, Nat.ne_of_lt hFE]
        · rw [List.append_assoc, List.erase_append_right _ (hLSnot _ rfl)]
          have hdropsrc : List.filter
              (fun l => l.fromNode != freshId (g.addNode (bakeTexNode g)) &&
                l.toNode != freshId (g.addNode (bakeTexNode g)))
              [Link.mk src.1 src.2 (freshId (g.addNode (bakeTexNode g))) "Color"] = [] := by
            simp
          simp only [List.singleton_append, List.erase_cons_head, List.filter_append,
            hfilterEl, hdropsrc, List.filter_nil, List.append_nil, hfilterFl]
          exact List.Perm.refl _
    | some l0 =>
      have horig2 : g.links.find?
          (fun l => l.toNode == out.id && l.toSocket == "Surface") = some l0 := horig
      have hl0mem : l0 ∈ g.links := List.mem_of_find?_eq_some horig2
      have hl0pred : l0.toNode = out.id ∧ l0.toSocket = "Surface" := by
        have := List.find?_some horig2
        simpa using this
      have hl0to : l0.toNode = out.id := hl0pred.1
      have hl0sock : l0.toSocket = "Surface" := hl0pred.2
      have hl0rc : Link.mk l0.fromNode l0.fromSocket out.id "Surface" = l0 := by
        rw [← hl0to, ← hl0sock]
      have hAsub : ∀ x ∈ g.links.erase l0, x ∈ g.links :=
        fun x hx => List.erase_subset l0 g.links hx
      have hAF : ∀ x ∈ g.links.erase l0, x.fromNode < freshId g ∧ x.toNode < freshId g :=
        fun x hx => hgl x (hAsub x hx)
      have hAE : ∀ x ∈ g.links.erase l0,
          x.fromNode < freshId (g.addNode (bakeTexNode g)) ∧
          x.toNode < freshId (g.addNode (bakeTexNode g)) :=
        fun x hx => hglE x (hAsub x hx)
      have hLSnotA : Link.mk (freshId (g.addNode (bakeTexNode g))) "Emission" out.id "Surface" ∉
          g.links.erase l0 := by
        intro hmem
        have := (hAE _ hmem).1
        exact absurd this (Nat.lt_irrefl _)
      have hfilterEA : (g.links.erase l0).filter
          (fun l => l.fromNode != freshId (g.addNode (bakeTexNode g)) &&
            l.toNode != freshId (g.addNode (bakeTexNode g))) = g.links.erase l0 :=
        filter_links_lt _ _ hAE
      have hfilterFA : (g.links.erase l0).filter
          (fun l => l.fromNode != freshId g && l.toNode != freshId g) = g.links.erase l0 :=
        filter_links_lt _ _ hAF
      have hl0E : l0.fromNode < freshId (g.addNode (bakeTexNode g)) ∧
          l0.toNode < freshId (g.addNode (bakeTexNode g)) := hglE l0 hl0mem
      have hl0keepE : List.filter
          (fun l => l.fromNode != freshId (g.addNode (bakeTexNode g)) &&
            l.toNode != freshId (g.addNode (bakeTexNode g))) [l0] = [l0] :=
        filter_links_lt [l0] _ (by intro x hx; rw [List.mem_singleton.mp hx]; exact hl0E)
      have hl0keepF : List.filter
          (fun l => l.fromNode != freshId g && l.toNode != freshId g) [l0] = [l0] :=
        filter_links_lt [l0] _
          (by intro x hx; rw [List.mem_singleton.mp hx]; exact hgl l0 hl0mem)
      have hpermfin : List.Perm (g.links.erase l0 ++ [l0]) g.links :=
        (List.perm_append_singleton l0 _).trans (List.perm_cons_erase hl0mem).symm
      cases hsrc : findSourceSocket (g.addNode (bakeTexNode g)) mapName
          (g.addNode (bakeTexNode g)).nodes with
      | none =>
        simp only [horig, hsrc, bakeCleanupGraph, Option.map_some', removeLink_links,
          removeLink_nodes, removeNode_nodes, removeNode_links, addLink_links, addLink_nodes,
          addNode_nodes, addNode_links, setColorValue_nodes, setColorValue_links,
          bakeTexNode_id, emissionNode_id]
        constructor
        · simp [hmap2, hfused, Nat.ne_of_lt hFE]
        · rw [List.erase_append_right _ hLSnotA]
          simp only [List.erase_cons_head, List.append_nil]
          rw [hl0rc]
          simp only [List.filter_append, hfilterEA, hl0keepE, hfilterFA, hl0keepF]
          exact hpermfin
      | some src =>
        simp only [horig, hsrc, bakeCleanupGraph, Option.map_some', removeLink_links,
          removeLink_nodes, removeNode_nodes, removeNode_links, addLink_links, addLink_nodes,
          addNode_nodes, addNode_links, setColorValue_nodes, setColorValue_links,
          bakeTexNode_id, emissionNode_id]
        constructor
        · simp [hmap2, hfused, Nat.ne_of_lt hFE]
        · rw [List.append_assoc, List.erase_append_right _ hLSnotA]
          simp only [List.singleton_append, List.erase_cons_head]
          rw [hl0rc]
          have hdropsrc : List.filter
              (fun l => l.fromNode != freshId (g.addNode (bakeTexNode g)) &&
                l.toNode != freshId (g.addNode (bakeTexNode g)))
              [Link.mk src.1 src.2 (freshId (g.addNode (bakeTexNode g))) "Color"] = [] := by
            simp
          simp only [List.filter_append, hfilterEA, hdropsrc, List.filter_nil,
            List.append_nil, hl0keepE, hfilterFA, hl0keepF]
          exact hpermfin

/-! ## Equivalence and invariant helper lemmas -/

theorem OMatEquiv_refl (o : Option Material) : OMatEquiv o o := by
  cases o with
  | none => trivial
  | some m => exact ⟨rfl, rfl, rfl, List.Perm.refl _⟩

theorem OMatEquiv_trans {a b c : Option Material}
    (h1 : OMatEquiv a b) (h2 : OMatEquiv b c) : OMatEquiv a c := by
  cases a with
  | none => cases b with
    | none => cases c with
      | none => trivial
      | some mc => exact absurd h2 (by simp [OMatEquiv])
    | some mb => exact absurd h1 (by simp [OMatEquiv])
  | some ma => cases b with
    | none => exact absurd h1 (by simp [OMatEquiv])
    | some mb => cases c with
      | none => exact absurd h2 (by simp [OMatEquiv])
      | some mc =>
        obtain ⟨n1, u1, nd1, lk1⟩ := h1
        obtain ⟨n2, u2, nd2, lk2⟩ := h2
        exact ⟨n1.trans n2, u1.trans u2, nd2.trans nd1, lk2.trans lk1⟩

theorem MatsEquiv_refl (a : List (Option Material)) : MatsEquiv a a :=
  fun _ => OMatEquiv_refl _

theorem MatsEquiv_trans {a b c : List (Option Material)}
    (h1 : MatsEquiv a b) (h2 : MatsEquiv b c) : MatsEquiv a c :=
  fun i => OMatEquiv_trans (h1 i) (h2 i)

theorem MatsEquiv_of_eq {a b : List (Option Material)} (h : a = b) : MatsEquiv a b := by
  subst h; exact MatsEquiv_refl a

theorem WF_of_equiv (g g' : NodeTree) (hn : g'.nodes = g.nodes)
    (hl : List.Perm g'.links g.links) (hwf : g.WFgraph) : g'.WFgraph := by
  intro l hlmem
  have hlg : l ∈ g.links := hl.mem_iff.mp hlmem
  rw [hn]
  exact hwf l hlg

theorem matsWF_of_forall (l : List (Option Material)) (h : ∀ m ∈ l, OWF m) : MatsWF l := by
  intro i
  by_cases hi : i < l.length
  · have hmem : l.getD i none ∈ l := by
      rw [List.getD_eq_getElem?_getD, List.getElem?_eq_getElem hi]
      exact List.getElem_mem hi
    exact h _ hmem
  · rw [getD_of_le l i none (Nat.le_of_not_lt hi)]
    trivial

/-! ## Field preservation across the state machine -/

theorem cleanup_fields (s : ModalState) :
    (cleanup s).materials = s.materials ∧ (cleanup s).bake_phase = s.bake_phase ∧
    (cleanup s).engine = s.prevEngine ∧ (cleanup s).prevEngine = s.prevEngine ∧
    (cleanup s).cyclesSamples = s.cyclesSamples ∧ (cleanup s).tempObjAlive = false ∧
    (cleanup s).meshEvalAlive = false ∧ (cleanup s).bakeProgress = 0 ∧
    (cleanup s).timerAlive = false ∧ (cleanup s).total_steps = s.total_steps ∧
    (cleanup s).objName = s.objName :=
  ⟨rfl, rfl, rfl, rfl, rfl, rfl, rfl, rfl, rfl, rfl, rfl⟩

theorem doSetupMat_fields (s : ModalState) (idx : Nat) (mapName : String) (mat : Material) :
    (doSetupMat s idx mapName mat).bake_phase = BakePhase.BAKE ∧
    (doSetupMat s idx mapName mat).step = s.step ∧
    (doSetupMat s idx mapName mat).prevEngine = s.prevEngine ∧
    (doSetupMat s idx mapName mat).engine = s.engine ∧
    (doSetupMat s idx mapName mat).cyclesSamples = s.cyclesSamples ∧
    (doSetupMat s idx mapName mat).total_steps = s.total_steps ∧
    (doSetupMat s idx mapName mat).objName = s.objName ∧
    (doSetupMat s idx mapName mat).materials = s.materials.set idx
      (some { mat with nodeTree := (setupGraphAndCtx idx mapName s.objName mat.name
        mat.nodeTree).1 }) ∧
    (doSetupMat s idx mapName mat).current_setup =
      some (setupGraphAndCtx idx mapName s.objName mat.name mat.nodeTree).2 :=
  ⟨rfl, rfl, rfl, rfl, rfl, rfl, rfl, rfl, rfl⟩

theorem doBake_fields (render : NodeTree → String → List Nat) (s : ModalState)
    (ctx : SetupCtx) :
    (doBake render s ctx).bake_phase = BakePhase.SETUP ∧
    (doBake render s ctx).step = s.step + 1 ∧
    (doBake render s ctx).prevEngine = s.prevEngine ∧
    (doBake render s ctx).engine = s.engine ∧
    (doBake render s ctx).cyclesSamples = s.cyclesSamples ∧
    (doBake render s ctx).total_steps = s.total_steps ∧
    (doBake render s ctx).objName = s.objName ∧
    (doBake render s ctx).tempObjAlive = s.tempObjAlive ∧
    (doBake render s ctx).meshEvalAlive = s.meshEvalAlive ∧
    (doBake render s ctx).timerAlive = s.timerAlive ∧
    (doBake render s ctx).materials = s.materials.set ctx.matIndex
      (some { (s.materials.getD ctx.matIndex none).getD noneMaterial with
              nodeTree := bakeCleanupGraph
                ((s.materials.getD ctx.matIndex none).getD noneMaterial).nodeTree ctx }) := by
  unfold doBake
  dsimp only
  split
  · split
    · exact ⟨rfl, rfl, rfl, rfl, rfl, rfl, rfl, rfl, rfl, rfl, rfl⟩
    · exact ⟨rfl, rfl, rfl, rfl, rfl, rfl, rfl, rfl, rfl, rfl, rfl⟩
  · exact ⟨rfl, rfl, rfl, rfl, rfl, rfl, rfl, rfl, rfl, rfl, rfl⟩

/-! ## The one-step state rollback and the run invariant -/

theorem setup_bake_state_rollback (render : NodeTree → String → List Nat)
    (s : ModalState) (idx : Nat) (mapName : String) (mat : Material)
    (hm : s.materials.getD idx none = some mat)
    (hwf : mat.nodeTree.WFgraph) :
    (bakeTick render (doSetupMat s idx mapName mat)).1 = ModalResult.RUNNING_MODAL ∧
    (bakeTick render (doSetupMat s idx mapName mat)).2.bake_phase = BakePhase.SETUP ∧
    (bakeTick render (doSetupMat s idx mapName mat)).2.step = s.step + 1 ∧
    MatsEquiv s.materials (bakeTick render (doSetupMat s idx mapName mat)).2.materials ∧
    (MatsWF s.materials → MatsWF (bakeTick render (doSetupMat s idx mapName mat)).2.materials) ∧
    (bakeTick render (doSetupMat s idx mapName mat)).2.prevEngine = s.prevEngine ∧
    (bakeTick render (doSetupMat s idx mapName mat)).2.cyclesSamples = s.cyclesSamples ∧
    (bakeTick render (doSetupMat s idx mapName mat)).2.total_steps = s.total_steps ∧
    (bakeTick render (doSetupMat s idx mapName mat)).2.objName = s.objName := by
  have hidx : idx < s.materials.length := lt_length_of_getD_some _ _ _ hm
  have hbt : bakeTick render (doSetupMat s idx mapName mat) =
      (ModalResult.RUNNING_MODAL,
       doBake render (doSetupMat s idx mapName mat)
         (setupGraphAndCtx idx mapName s.objName mat.name mat.nodeTree).2) := rfl
  set sb := doSetupMat s idx mapName mat with hsb
  set ctx := (setupGraphAndCtx idx mapName s.objName mat.name mat.nodeTree).2 with hctx
  have hdb := doBake_fields render sb ctx
  -- the material read back in BAKE is the one written in SETUP
  have hctxidx : ctx.matIndex = idx := by
    rw [hctx]
    simp only [setupGraphAndCtx]
    cases findOutNode (mat.nodeTree.addNode (bakeTexNode mat.nodeTree)) <;> rfl
  have hmats : sb.materials = s.materials.set idx
      (some { mat with nodeTree := (setupGraphAndCtx idx mapName s.objName mat.name
        mat.nodeTree).1 }) := (doSetupMat_fields s idx mapName mat).2.2.2.2.2.2.2.1
  have hread : sb.materials.getD idx none =
      some { mat with nodeTree := (setupGraphAndCtx idx mapName s.objName mat.name
        mat.nodeTree).1 } := by
    rw [hmats]
    exact getD_set_self _ _ _ _ hidx
  have hroll := setup_bake_graph_rollback idx mapName s.objName mat.name mat.nodeTree hwf
  -- the final material written back by the BAKE step
  have hfinalmat : (doBake render sb ctx).materials = sb.materials.set idx
      (some { mat with
                nodeTree := bakeCleanupGraph (setupGraphAndCtx idx mapName s.objName
                  mat.name mat.nodeTree).1 ctx }) := by
    rw [hdb.2.2.2.2.2.2.2.2.2.2, hctxidx, hread]
    exact rfl
  have hlen2 : idx < sb.materials.length := by
    rw [hmats, List.length_set]; exact hidx
  have hequiv : MatsEquiv s.materials (doBake render sb ctx).materials := by
    intro i
    by_cases hij : idx = i
    · subst hij
      rw [hfinalmat, getD_set_self _ _ _ _ hlen2, hm]
      exact ⟨rfl, rfl, hroll.1, hroll.2⟩
    · rw [hfinalmat, getD_set_ne _ _ _ _ _ hij, hmats, getD_set_ne _ _ _ _ _ hij]
      exact OMatEquiv_refl _
  refine ⟨by rw [hbt], by rw [hbt]; exact hdb.1, by rw [hbt]; exact hdb.2.1,
    by rw [hbt]; exact hequiv, ?_, by rw [hbt]; exact hdb.2.2.1,
    by rw [hbt]; exact hdb.2.2.2.2.1, by rw [hbt]; exact hdb.2.2.2.2.2.1,
    by rw [hbt]; exact hdb.2.2.2.2.2.2.1⟩
  intro hWFall
  rw [hbt]
  intro i
  by_cases hij : idx = i
  · subst hij
    rw [hfinalmat, getD_set_self _ _ _ _ hlen2]
    exact WF_of_equiv _ _ hroll.1 hroll.2 hwf
  · rw [hfinalmat, getD_set_ne _ _ _ _ _ hij, hmats, getD_set_ne _ _ _ _ _ hij]
    exact hWFall i

/-- The SETUP branch always returns RUNNING_MODAL when the run is not
complete. -/
theorem setupTick_running (s : ModalState) (h : ¬ s.step ≥ s.total_steps) :
    (setupTick s).1 = ModalResult.RUNNING_MODAL := by
  unfold setupTick
  rw [if_neg h]
  dsimp only
  split
  · rfl
  · split <;> rfl

/-- The BAKE branch always returns RUNNING_MODAL. -/
theorem bakeTick_running (render : NodeTree → String → List Nat) (s : ModalState) :
    (bakeTick render s).1 = ModalResult.RUNNING_MODAL := by
  unfold bakeTick
  cases s.current_setup <;> rfl

/-- A terminal result only arises from _cleanup: whenever modal returns
FINISHED or CANCELLED, the resulting state is exactly cleanup of the input
state. -/
theorem modal_terminal_cleanup (render : NodeTree → String → List Nat)
    (s : ModalState) (ev : Event)
    (h : (modal render s ev).1 = ModalResult.FINISHED ∨
         (modal render s ev).1 = ModalResult.CANCELLED) :
    (modal render s ev).2 = cleanup s := by
  cases ev with
  | escPress => rfl
  | other => simp [modal] at h
  | timerTick =>
    have hmod : modal render s Event.timerTick = timerStep render s := rfl
    rw [hmod] at h ⊢
    cases hb : s.bake_phase with
    | SETUP =>
      have ht : timerStep render s = setupTick s := by unfold timerStep; rw [hb]
      rw [ht] at h ⊢
      by_cases hstep : s.step ≥ s.total_steps
      · unfold setupTick
        rw [if_pos hstep]
      · exfalso
        have hr := setupTick_running s hstep
        rw [hr] at h
        rcases h with h | h <;> exact ModalResult.noConfusion h
    | BAKE =>
      have ht : timerStep render s = bakeTick render s := by unfold timerStep; rw [hb]
      rw [ht] at h
      have hr := bakeTick_running render s
      rw [hr] at h
      rcases h with h | h <;> exact ModalResult.noConfusion h

/-- Every modal transition preserves the run bookkeeping fields. -/
theorem modal_preserves (render : NodeTree → String → List Nat)
    (s : ModalState) (ev : Event) :
    (modal render s ev).2.prevEngine = s.prevEngine ∧
    (modal render s ev).2.cyclesSamples = s.cyclesSamples ∧
    (modal render s ev).2.total_steps = s.total_steps ∧
    (modal render s ev).2.objName = s.objName := by
  cases ev with
  | escPress => exact ⟨rfl, rfl, rfl, rfl⟩
  | other => exact ⟨rfl, rfl, rfl, rfl⟩
  | timerTick =>
    have hmod : modal render s Event.timerTick = timerStep render s := rfl
    rw [hmod]
    cases hb : s.bake_phase with
    | SETUP =>
      have ht : timerStep render s = setupTick s := by unfold timerStep; rw [hb]
      rw [ht]
      unfold setupTick
      by_cases hstep : s.step ≥ s.total_steps
      · rw [if_pos hstep]
        exact ⟨rfl, rfl, rfl, rfl⟩
      · rw [if_neg hstep]
        dsimp only
        split
        · exact ⟨rfl, rfl, rfl, rfl⟩
        · split
          · exact ⟨rfl, rfl, rfl, rfl⟩
          · exact ⟨rfl, rfl, rfl, rfl⟩
    | BAKE =>
      have ht : timerStep render s = bakeTick render s := by unfold timerStep; rw [hb]
      rw [ht]
      unfold bakeTick
      cases hc : s.current_setup with
      | none => exact ⟨rfl, rfl, rfl, rfl⟩
      | some ctx =>
        have h := doBake_fields render s ctx
        exact ⟨h.2.2.1, h.2.2.2.2.1, h.2.2.2.2.2.1, h.2.2.2.2.2.2.1⟩

/-- One transition preserves the run invariant, and at a terminal transition
(cleanup only) the materials are exactly the between-steps materials. -/
theorem runInv_step (render : NodeTree → String → List Nat)
    (m0 : List (Option Material)) (s : ModalState) (ev : Event)
    (hInv : RunInv m0 s)
    (hesc : ev = Event.escPress → s.bake_phase = BakePhase.SETUP) :
    (((modal render s ev).1 = ModalResult.FINISHED ∨
      (modal render s ev).1 = ModalResult.CANCELLED) →
        MatsEquiv m0 (modal render s ev).2.materials) ∧
    (¬ ((modal render s ev).1 = ModalResult.FINISHED ∨
      (modal render s ev).1 = ModalResult.CANCELLED) →
        RunInv m0 (modal render s ev).2) := by
  rcases hInv with hS | hB
  · constructor
    · intro hterm
      rw [modal_terminal_cleanup render s ev hterm]
      exact hS.2.1
    · intro hterm
      cases ev with
      | escPress => exact absurd (Or.inr rfl) hterm
      | other => exact Or.inl ⟨hS.1, hS.2.1, hS.2.2⟩
      | timerTick =>
        have hmod : modal render s Event.timerTick = timerStep render s := rfl
        rw [hmod]
        have ht : timerStep render s = setupTick s := by unfold timerStep; rw [hS.1]
        rw [ht]
        by_cases hstep : s.step ≥ s.total_steps
        · exfalso
          apply hterm
          left
          rw [hmod, ht]
          unfold setupTick
          rw [if_pos hstep]
        · unfold setupTick
          rw [if_neg hstep]
          dsimp only
          cases hm : s.materials.getD (s.step / bake_sequence.length) none with
          | none => exact Or.inl ⟨hS.1, hS.2.1, hS.2.2⟩
          | some mat =>
            dsimp only
            by_cases hu : mat.useNodes = true
            · rw [if_pos hu]
              exact Or.inr ⟨s, s.step / bake_sequence.length,
                (bake_sequence.getD (s.step % bake_sequence.length) ("", "", [])).1,
                mat, hS, hm, hu, rfl⟩
            · rw [if_neg hu]
              exact Or.inl ⟨hS.1, hS.2.1, hS.2.2⟩
  · obtain ⟨sp, idx, mn, mat, hsp, hm, hu, hsb⟩ := hB
    have hphase : s.bake_phase = BakePhase.BAKE := by rw [hsb]; rfl
    have hwf : mat.nodeTree.WFgraph := by
      have h := hsp.2.2 idx
      rw [hm] at h
      exact h
    constructor
    · intro hterm
      exfalso
      cases ev with
      | escPress =>
        have h := hesc rfl
        rw [hphase] at h
        exact BakePhase.noConfusion h
      | other => rcases hterm with h | h <;> exact ModalResult.noConfusion h
      | timerTick =>
        have hmod : modal render s Event.timerTick = timerStep render s := rfl
        rw [hmod] at hterm
        have ht : timerStep render s = bakeTick render s := by unfold timerStep; rw [hphase]
        rw [ht, bakeTick_running render s] at hterm
        rcases hterm with h | h <;> exact ModalResult.noConfusion h
    · intro _
      cases ev with
      | escPress =>
        exfalso
        have h := hesc rfl
        rw [hphase] at h
        exact BakePhase.noConfusion h
      | other => exact Or.inr ⟨sp, idx, mn, mat, hsp, hm, hu, hsb⟩
      | timerTick =>
        have hmod : modal render s Event.timerTick = timerStep render s := rfl
        rw [hmod]
        have ht : timerStep render s = bakeTick render s := by unfold timerStep; rw [hphase]
        rw [ht, hsb]
        have hroll := setup_bake_state_rollback render sp idx mn mat hm hwf
        exact Or.inl ⟨hroll.2.1, MatsEquiv_trans hsp.2.1 hroll.2.2.2.1,
          hroll.2.2.2.2.1 hsp.2.2⟩

/-- Driving the machine from a between-steps state over any event sequence in
which cancellation is only delivered between steps: when the run terminates,
every material slot is structurally equivalent to its pre-run state. -/
theorem runInv_run (render : NodeTree → String → List Nat)
    (m0 : List (Option Material)) :
    ∀ (evs : List Event) (s s2 : ModalState) (r : ModalResult),
    RunInv m0 s → escSafeRun render s evs = true →
    runEvents render s evs = (s2, some r) →
    MatsEquiv m0 s2.materials := by
  intro evs
  induction evs with
  | nil =>
    intro s s2 r _ _ hrun
    exact absurd hrun (by simp [runEvents])
  | cons ev rest ih =>
    intro s s2 r hInv hesc hrun
    unfold escSafeRun at hesc
    rw [Bool.and_eq_true] at hesc
    have hescev : ev = Event.escPress → s.bake_phase = BakePhase.SETUP := by
      intro heq
      have h1 := hesc.1
      rw [if_pos heq] at h1
      simpa using h1
    unfold runEvents at hrun
    by_cases hterm : (modal render s ev).1 = ModalResult.FINISHED ∨
        (modal render s ev).1 = ModalResult.CANCELLED
    · rw [if_pos hterm] at hrun
      have hs2 : (modal render s ev).2 = s2 := congrArg Prod.fst hrun
      rw [← hs2]
      exact (runInv_step render m0 s ev hInv hescev).1 hterm
    · rw [if_neg hterm] at hrun
      have hInv2 := (runInv_step render m0 s ev hInv hescev).2 hterm
      have hesc2 : escSafeRun render (modal render s ev).2 rest = true := by
        have h2 := hesc.2
        rw [if_neg hterm] at h2
        exact h2
      exact ih (modal render s ev).2 s2 r hInv2 hesc2 hrun

/-- C1 (amended): for every run driven to a terminal outcome (FINISHED or
CANCELLED) in which any cancellation is delivered while the machine is in the
SETUP phase (no step mid-flight between SETUP and BAKE), every material's
node list after the run equals its pre-run node list and its link list is a
permutation of its pre-run links — node and link sets are restored, the
temporary emission and bake nodes removed and any detached Surface link
reconnected.  (As the separate counterexample shows, the claim's stronger
form — including cancellation mid-flight between SETUP and BAKE — is false:
_cleanup does not roll back the current step's graph edits.) -/
theorem bake_run_structural_rollback (render : NodeTree → String → List Nat)
    (m0 : List (Option Material)) (s s2 : ModalState) (evs : List Event) (r : ModalResult)
    (hInv : SetupInv m0 s)
    (hesc : escSafeRun render s evs = true)
    (hrun : runEvents render s evs = (s2, some r)) :
    MatsEquiv m0 s2.materials :=
  runInv_run render m0 evs s s2 r (Or.inl hInv) hesc hrun

theorem bake_run_structural_rollback_witness :
    MatsEquiv objC.materials ((runEvents render0 c1s0 (timerTicks 13)).1).materials := by
  have h2 : (runEvents render0 c1s0 (timerTicks 13)).2 = some ModalResult.FINISHED := by
    decide
  exact bake_run_structural_rollback render0 objC.materials c1s0
    (runEvents render0 c1s0 (timerTicks 13)).1 (timerTicks 13) ModalResult.FINISHED
    ⟨by decide, MatsEquiv_of_eq (by decide), matsWF_of_forall _ (by decide)⟩
    (by decide) (by rw [← h2])

/-- C1 counterexample: the claim as stated is false.  Cancelling (ESC) while
a step is mid-flight between SETUP and BAKE leaves the temporary emission
node, the bake image node and the emission→Surface link in the material's
graph: after one timer tick and an ESC on a one-material run, the graph
holds an EMISSION node and one link although the pre-run graph had neither. -/
theorem bake_cancel_midflight_counterexample :
    (runEvents render0 c1s0 [Event.timerTick, Event.escPress]).2 =
      some ModalResult.CANCELLED ∧
    ((matTreeAt (runEvents render0 c1s0 [Event.timerTick, Event.escPress]).1 0).nodes.filter
      (fun n => n.ntype == NodeType.EMISSION)).length = 1 ∧
    ((matTreeAt c1s0 0).nodes.filter (fun n => n.ntype == NodeType.EMISSION)).length = 0 ∧
    (matTreeAt (runEvents render0 c1s0 [Event.timerTick, Event.escPress]).1 0).links.length = 1 ∧
    (matTreeAt c1s0 0).links.length = 0 := by decide

/-- Every terminal run restores the engine from the snapshot, leaves the
cycles sample count untouched, destroys the transient object and mesh, and
resets progress and the timer. -/
theorem runEvents_terminal_state (render : NodeTree → String → List Nat) :
    ∀ (evs : List Event) (s s2 : ModalState) (r : ModalResult),
    runEvents render s evs = (s2, some r) →
    s2.engine = s.prevEngine ∧ s2.cyclesSamples = s.cyclesSamples ∧
    s2.tempObjAlive = false ∧ s2.meshEvalAlive = false ∧ s2.bakeProgress = 0 ∧
    s2.timerAlive = false := by
  intro evs
  induction evs with
  | nil =>
    intro s s2 r hrun
    exact absurd hrun (by simp [runEvents])
  | cons ev rest ih =>
    intro s s2 r hrun
    unfold runEvents at hrun
    by_cases hterm : (modal render s ev).1 = ModalResult.FINISHED ∨
        (modal render s ev).1 = ModalResult.CANCELLED
    · rw [if_pos hterm] at hrun
      have hs2 : (modal render s ev).2 = s2 := congrArg Prod.fst hrun
      have hcl := modal_terminal_cleanup render s ev hterm
      rw [← hs2, hcl]
      have hc := cleanup_fields s
      exact ⟨hc.2.2.1, hc.2.2.2.2.1, hc.2.2.2.2.2.1, hc.2.2.2.2.2.2.1,
        hc.2.2.2.2.2.2.2.1, hc.2.2.2.2.2.2.2.2.1⟩
    · rw [if_neg hterm] at hrun
      have hpres := modal_preserves render s ev
      have hrec := ih (modal render s ev).2 s2 r hrun
      exact ⟨by rw [hrec.1, hpres.1], by rw [hrec.2.1, hpres.2.1], hrec.2.2.1,
        hrec.2.2.2.1, hrec.2.2.2.2.1, hrec.2.2.2.2.2⟩

/-- C9 (amended): on every exit path of a run — normal completion and
cancellation alike — the render engine is restored to the snapshot taken at
run start, the transient object and mesh are destroyed and progress is reset
to 0; the cycles sample count changed for baking is NOT part of the snapshot
and is left at the value the run set (16), as the separate counterexample
shows. -/
theorem engine_restore_on_every_exit :
    (∀ (render : NodeTree → String → List Nat) (evs : List Event)
        (s s2 : ModalState) (r : ModalResult),
        runEvents render s evs = (s2, some r) →
        s2.engine = s.prevEngine ∧ s2.cyclesSamples = s.cyclesSamples ∧
        s2.tempObjAlive = false ∧ s2.meshEvalAlive = false ∧ s2.bakeProgress = 0) ∧
    (∀ (props : Props) (o : SceneObj) (scene : Scene) (s0 : ModalState),
        invoke props (some o) scene = InvokeResult.running s0 →
        s0.prevEngine = scene.engine ∧ s0.cyclesSamples = 16) := by
  constructor
  · intro render evs s s2 r h
    have hterm := runEvents_terminal_state render evs s s2 r h
    exact ⟨hterm.1, hterm.2.1, hterm.2.2.1, hterm.2.2.2.1, hterm.2.2.2.2.1⟩
  · intro props o scene s0 h
    unfold invoke at h
    dsimp only at h
    split at h
    · exact InvokeResult.noConfusion h
    · injection h with h2
      rw [← h2]
      exact ⟨rfl, rfl⟩

theorem engine_restore_on_every_exit_witness :
    ((runEvents render0 c5s0 [Event.escPress]).1.engine = c5s0.prevEngine ∧
     (runEvents render0 c5s0 [Event.escPress]).1.cyclesSamples = c5s0.cyclesSamples ∧
     (runEvents render0 c5s0 [Event.escPress]).1.tempObjAlive = false ∧
     (runEvents render0 c5s0 [Event.escPress]).1.meshEvalAlive = false ∧
     (runEvents render0 c5s0 [Event.escPress]).1.bakeProgress = 0) ∧
    (c5s0.prevEngine = scene0.engine ∧ c5s0.cyclesSamples = 16) := by
  constructor
  · have h2 : (runEvents render0 c5s0 [Event.escPress]).2 = some ModalResult.CANCELLED := by
      decide
    exact engine_restore_on_every_exit.1 render0 [Event.escPress] c5s0
      (runEvents render0 c5s0 [Event.escPress]).1 ModalResult.CANCELLED (by rw [← h2])
  · exact engine_restore_on_every_exit.2 props2048 obj2 scene0 c5s0 (by decide)

/-- C9 counterexample: the claim as stated is false in that it includes the
quality/sample setting in the restored snapshot.  With cycles samples 4
before the run, the run forces 16 and cancellation restores the engine but
leaves the sample count at 16 ≠ 4. -/
theorem engine_restore_counterexample :
    invokeRun props2048 (some obj2) scene0 = some c5s0 ∧
    scene0.cyclesSamples = 4 ∧
    (runEvents render0 c5s0 [Event.escPress]).2 = some ModalResult.CANCELLED ∧
    (runEvents render0 c5s0 [Event.escPress]).1.engine = scene0.engine ∧
    (runEvents render0 c5s0 [Event.escPress]).1.cyclesSamples = 16 ∧
    ¬ (runEvents render0 c5s0 [Event.escPress]).1.cyclesSamples = scene0.cyclesSamples := by
  decide

/-- C4 (amended): invoke aborts a run — returning CANCELLED with the scene
untouched, before any mutation — exactly when the width or height is ZERO
(Python integer truthiness of `w and h`), the output path is not an existing
directory, or no object is selected.  Negative dimensions are NOT rejected
(see the separate counterexample). -/
theorem invoke_precondition_check (props : Props) (obj : Option SceneObj) (scene : Scene) :
    invoke props obj scene = InvokeResult.cancelled scene ↔
    (props.bake_width = 0 ∨ props.bake_height = 0 ∨
     props.bake_path ∉ scene.dirs ∨ obj = none) := by
  cases obj with
  | none =>
    constructor
    · intro _
      exact Or.inr (Or.inr (Or.inr rfl))
    · intro _
      unfold invoke
      dsimp only
      split <;> rfl
  | some o =>
    constructor
    · intro h
      unfold invoke at h
      dsimp only at h
      split at h
      · next hcond =>
        rcases hcond with h1 | h2 | h3 | h4
        · exact Or.inl h1
        · exact Or.inr (Or.inl h2)
        · exact Or.inr (Or.inr (Or.inl h3))
        · exact absurd h4 (by simp)
      · exact InvokeResult.noConfusion h
    · intro h
      unfold invoke
      dsimp only
      rw [if_pos ?hc]
      case hc =>
        rcases h with h1 | h2 | h3 | h4
        · exact Or.inl h1
        · exact Or.inr (Or.inl h2)
        · exact Or.inr (Or.inr (Or.inl h3))
        · exact Option.noConfusion h4

theorem invoke_precondition_check_witness :
    invoke { bake_width := 0, bake_height := 2048, bake_path := "/out" }
      (some obj2) scene0 = InvokeResult.cancelled scene0 :=
  (invoke_precondition_check
    { bake_width := 0, bake_height := 2048, bake_path := "/out" }
    (some obj2) scene0).mpr (Or.inl rfl)

/-- C4 counterexample: the claim as stated is false — a NEGATIVE width does
not abort the run.  With bake_width = -1, an existing output directory and a
selected object, invoke starts the run (the check is Python's `not (w and h)`
zero-test, not a positivity test). -/
theorem invoke_negative_width_counterexample :
    (invoke { bake_width := -1, bake_height := 2048, bake_path := "/out" }
      (some obj2) scene0).isRunning = true := by decide

/-- C5 counterexample: the claim as stated is false — delivering exactly 12
scheduler ticks to a freshly started 2-material run does NOT finish it: each
(material, channel) step consumes one SETUP tick and one BAKE tick, so 12
ticks only reach step 6 of 12 and the run is still in progress. -/
theorem twelve_ticks_counterexample :
    c5s0.total_steps = 12 ∧
    ¬ (runEvents render0 c5s0 (timerTicks 12)).2 = some ModalResult.FINISHED ∧
    (runEvents render0 c5s0 (timerTicks 12)).2 = none ∧
    (runEvents render0 c5s0 (timerTicks 12)).1.step = 6 := by decide

/-- C10: the fast-path copy scan inspects only the FIRST node of the target
type (the break at src/__init__.py:622 sits inside the type test), whatever
that node's sockets hold; so the scan result over pre ++ n :: post is the
extraction from n alone, and when n yields no source the scan yields none
even if a later node of the same type carries a qualifying file-backed
image — the step then falls back to the render path. -/
theorem fast_path_scan_first_node_only (nt : NodeTree) (mapName : String)
    (pre : List GraphNode) (n : GraphNode) (post : List GraphNode)
    (hpre : ∀ m ∈ pre, m.ntype ≠ targetNodeType mapName)
    (hn : n.ntype = targetNodeType mapName) :
    scanCopySource nt mapName (pre ++ n :: post) = copySourceFromNode nt mapName n ∧
    (copySourceFromNode nt mapName n = none →
      scanCopySource nt mapName (pre ++ n :: post) = none) := by
  have h1 : scanCopySource nt mapName (pre ++ n :: post) = copySourceFromNode nt mapName n := by
    induction pre with
    | nil =>
      simp only [List.nil_append]
      unfold scanCopySource
      rw [if_pos hn]
    | cons a t ih =>
      have ha := hpre a (List.mem_cons_self a t)
      simp only [List.cons_append]
      unfold scanCopySource
      rw [if_neg ha]
      exact ih (fun m hm => hpre m (List.mem_cons_of_mem a hm))
  exact ⟨h1, fun h => h1.trans h⟩

theorem fast_path_scan_first_node_only_witness :
    scanCopySource ntC10 "metallic" (preC10 ++ nC10 :: postC10) =
      copySourceFromNode ntC10 "metallic" nC10 ∧
    copySourceFromNode ntC10 "metallic" nC10 = none ∧
    scanCopySource ntC10 "metallic" postC10 = some "/tex/m2.png" :=
  ⟨(fast_path_scan_first_node_only ntC10 "metallic" preC10 nC10 postC10
      (by decide) (by decide)).1,
   by decide, by decide⟩

section
attribute [local semireducible] Rat.mul Rat.inv Rat.add Rat.sub

/-- C5 (amended): for the 2-material run, total_steps = 12, but the machine
consumes TWO ticks per (material, channel) step (one SETUP, one BAKE) plus
one final SETUP tick that observes completion: 25 ticks from a freshly
started run yield FINISHED with the transient object and mesh removed.  The
progress property reads 1.0 after the 24th tick (the last BAKE), and the
completion cleanup resets it to 0 — it does not read 1.0 at FINISHED. -/
theorem two_material_run_completion :
    invokeRun props2048 (some obj2) scene0 = some c5s0 ∧
    c5s0.total_steps = 12 ∧
    (runEvents render0 c5s0 (timerTicks 25)).2 = some ModalResult.FINISHED ∧
    (runEvents render0 c5s0 (timerTicks 25)).1.tempObjAlive = false ∧
    (runEvents render0 c5s0 (timerTicks 25)).1.meshEvalAlive = false ∧
    (runEvents render0 c5s0 (timerTicks 24)).1.bakeProgress = 1 ∧
    (runEvents render0 c5s0 (timerTicks 25)).1.bakeProgress = 0 := by decide

end

theorem setupGraphAndCtx_idx_name (matIdx : Nat) (mapName objName matName : String)
    (g : NodeTree) :
    (setupGraphAndCtx matIdx mapName objName matName g).2.matIndex = matIdx ∧
    (setupGraphAndCtx matIdx mapName objName matName g).2.mapName = mapName := by
  simp only [setupGraphAndCtx]
  cases findOutNode (g.addNode (bakeTexNode g)) <;> exact ⟨rfl, rfl⟩

theorem bake_sequence_names_getD (i : Nat) :
    (bake_sequence.getD i ("", "", [])).1 =
    (["base_color", "roughness", "specular", "metallic", "alpha", "normal"] :
      List String).getD i "" := by
  match i with
  | 0 => rfl
  | 1 => rfl
  | 2 => rfl
  | 3 => rfl
  | 4 => rfl
  | 5 => rfl
  | n + 6 => rfl

/-- C2: the bake channel sequence is fixed in exactly the order base_color,
roughness, specular, metallic, alpha, normal; its length is 6; invoke sets
total_steps = |materials| × 6; and the SETUP transition at step s processes
material index s / 6 with the channel of index s % 6 of that sequence. -/
theorem bake_sequence_contract :
    bake_sequence.map (fun e => e.1) =
      ["base_color", "roughness", "specular", "metallic", "alpha", "normal"] ∧
    bake_sequence.length = 6 ∧
    (∀ (props : Props) (o : SceneObj) (scene : Scene) (s0 : ModalState),
       invoke props (some o) scene = InvokeResult.running s0 →
       s0.total_steps = o.materials.length * 6) ∧
    (∀ (render : NodeTree → String → List Nat) (s : ModalState) (mat : Material),
       s.bake_phase = BakePhase.SETUP → ¬ s.step ≥ s.total_steps →
       s.materials.getD (s.step / 6) none = some mat → mat.useNodes = true →
       Option.map (fun c => (c.matIndex, c.mapName))
         ((modal render s Event.timerTick).2.current_setup) =
       some (s.step / 6,
         (["base_color", "roughness", "specular", "metallic", "alpha", "normal"] :
           List String).getD (s.step % 6) "")) := by
  refine ⟨rfl, rfl, ?_, ?_⟩
  · intro props o scene s0 h
    unfold invoke at h
    dsimp only at h
    split at h
    · exact InvokeResult.noConfusion h
    · injection h with h2
      rw [← h2]
      rfl
  · intro render s mat hphase hstep hm hu
    have hmod : modal render s Event.timerTick = timerStep render s := rfl
    rw [hmod]
    have ht : timerStep render s = setupTick s := by unfold timerStep; rw [hphase]
    rw [ht]
    unfold setupTick
    rw [if_neg hstep]
    have hm6 : s.materials.getD (s.step / bake_sequence.length) none = some mat := hm
    simp only [hm6]
    rw [if_pos hu]
    rw [(doSetupMat_fields s (s.step / bake_sequence.length)
      (bake_sequence.getD (s.step % bake_sequence.length) ("", "", [])).1 mat).2.2.2.2.2.2.2.2]
    simp only [Option.map_some']
    have hf := setupGraphAndCtx_idx_name (s.step / bake_sequence.length)
      (bake_sequence.getD (s.step % bake_sequence.length) ("", "", [])).1
      s.objName mat.name mat.nodeTree
    rw [hf.1, hf.2, bake_sequence_names_getD]
    rfl

theorem bake_sequence_contract_witness :
    (c1s0.bake_phase = BakePhase.SETUP ∧ ¬ c1s0.step ≥ c1s0.total_steps ∧
     c1s0.materials.getD (c1s0.step / 6) none = some matC ∧ matC.useNodes = true) ∧
    Option.map (fun c => (c.matIndex, c.mapName))
      ((modal render0 c1s0 Event.timerTick).2.current_setup) = some (0, "base_color") := by
  refine ⟨⟨by decide, by decide, by decide, by decide⟩, ?_⟩
  have h := bake_sequence_contract.2.2.2 render0 c1s0 matC
    (by decide) (by decide) (by decide) (by decide)
  exact h.trans (by decide)

theorem fsLookup_fsWrite_self (fs : FSys) (p : String) (bytes : List Nat) :
    fsLookup (fsWrite fs p bytes) p = some bytes := by
  unfold fsLookup fsWrite
  rw [List.find?_cons_of_pos _ (by simp)]
  rfl

/-- file_copied is true exactly when the channel is one of the three copy
channels and the scan resolves a non-empty source path whose file exists. -/
theorem fileCopied_iff (fs : FSys) (mapName : String) (nt : NodeTree) :
    fileCopied fs mapName nt = true ↔
    (mapName ∈ (["normal", "specular", "metallic"] : List String) ∧
     ∃ p, scanCopySource nt mapName nt.nodes = some p ∧ p ≠ "" ∧
       (fsLookup fs p).isSome = true) := by
  unfold fileCopied fastCopyPath
  by_cases hm : mapName ∈ (["normal", "specular", "metallic"] : List String)
  · rw [if_pos hm]
    cases hp : scanCopySource nt mapName nt.nodes with
    | none => simp [hm]
    | some p => simp [hm, bne_iff_ne]
  · rw [if_neg hm]
    simp [hm]

/-- The fs and render-call effect of a BAKE step: taking the fast path writes
the source file's bytes at the output path without a render call; otherwise
the render backend is invoked once. -/
theorem doBake_copy_effects (render : NodeTree → String → List Nat)
    (s : ModalState) (ctx : SetupCtx) :
    (∀ p, fastCopyPath ctx.mapName
        ((s.materials.getD ctx.matIndex none).getD noneMaterial).nodeTree = some p →
      (p != "" && (fsLookup s.fs p).isSome) = true →
      (doBake render s ctx).fs = fsWrite s.fs
        (bakeOutPath s.baseDir s.objName
          ((s.materials.getD ctx.matIndex none).getD noneMaterial).name ctx.mapName)
        ((fsLookup s.fs p).getD []) ∧
      (doBake render s ctx).renderCalls = s.renderCalls) ∧
    (fileCopied s.fs ctx.mapName
        ((s.materials.getD ctx.matIndex none).getD noneMaterial).nodeTree = false →
      (doBake render s ctx).renderCalls = s.renderCalls + 1) := by
  constructor
  · intro p hp hcond
    unfold doBake
    dsimp only
    simp only [hp]
    rw [if_pos hcond]
    exact ⟨rfl, rfl⟩
  · intro hfc
    unfold fileCopied at hfc
    unfold doBake
    dsimp only
    cases hp : fastCopyPath ctx.mapName
        ((s.materials.getD ctx.matIndex none).getD noneMaterial).nodeTree with
    | none =>
      simp only [hp]
    | some p =>
      rw [hp] at hfc
      dsimp only at hfc
      simp only [hp]
      have hcond : ¬ ((p != "" && (fsLookup s.fs p).isSome) = true) := by
        intro hcontra
        rw [hcontra] at hfc
        exact Bool.noConfusion hfc
      rw [if_neg hcond]

/-- C3: in a BAKE step the fast-path file copy is taken if and only if the
channel is one of normal, specular, metallic AND the alias-resolved socket
scan finds an upstream plain image-texture node whose (non-empty) file path
exists in the filesystem at step time; when taken, the bytes written at the
output path equal the source file's bytes exactly and the render backend is
not invoked; when not taken, the render backend is invoked. -/
theorem fast_path_copy_iff (render : NodeTree → String → List Nat)
    (s : ModalState) (ctx : SetupCtx) (mat : Material)
    (hphase : s.bake_phase = BakePhase.BAKE)
    (hctx : s.current_setup = some ctx)
    (hmat : s.materials.getD ctx.matIndex none = some mat) :
    (fileCopied s.fs ctx.mapName mat.nodeTree = true ↔
      (ctx.mapName ∈ (["normal", "specular", "metallic"] : List String) ∧
       ∃ p, scanCopySource mat.nodeTree ctx.mapName mat.nodeTree.nodes = some p ∧
         p ≠ "" ∧ (fsLookup s.fs p).isSome = true)) ∧
    (∀ p, fastCopyPath ctx.mapName mat.nodeTree = some p →
       (p != "" && (fsLookup s.fs p).isSome) = true →
       fsLookup ((modal render s Event.timerTick).2).fs
           (bakeOutPath s.baseDir s.objName mat.name ctx.mapName) = fsLookup s.fs p ∧
       ((modal render s Event.timerTick).2).renderCalls = s.renderCalls) ∧
    (fileCopied s.fs ctx.mapName mat.nodeTree = false →
       ((modal render s Event.timerTick).2).renderCalls = s.renderCalls + 1) := by
  have hgd : (s.materials.getD ctx.matIndex none).getD noneMaterial = mat := by
    rw [hmat]
    rfl
  have hmod : modal render s Event.timerTick = timerStep render s := rfl
  have ht : timerStep render s = bakeTick render s := by unfold timerStep; rw [hphase]
  have hbt : bakeTick render s = (ModalResult.RUNNING_MODAL, doBake render s ctx) := by
    unfold bakeTick
    rw [hctx]
  have heff := doBake_copy_effects render s ctx
  rw [hgd] at heff
  refine ⟨fileCopied_iff s.fs ctx.mapName mat.nodeTree, ?_, ?_⟩
  · intro p hp hcond
    have h1 := heff.1 p hp hcond
    rw [hmod, ht, hbt]
    dsimp only
    constructor
    · rw [h1.1]
      obtain ⟨v, hv⟩ := Option.isSome_iff_exists.mp (Bool.and_eq_true_iff.mp hcond).2
      rw [hv]
      rw [fsLookup_fsWrite_self]
      exact congrArg some rfl
    · exact h1.2
  · intro hfc
    rw [hmod, ht, hbt]
    exact heff.2 hfc

theorem fast_path_copy_iff_witness :
    (sD.bake_phase = BakePhase.BAKE ∧ sD.current_setup = some ctxD ∧
     sD.materials.getD ctxD.matIndex none = some matD) ∧
    fileCopied sD.fs ctxD.mapName matD.nodeTree = true ∧
    fsLookup ((modal render0 sD Event.timerTick).2).fs
        (bakeOutPath sD.baseDir sD.objName matD.name ctxD.mapName) =
      fsLookup sD.fs "/tex/metal.png" ∧
    ((modal render0 sD Event.timerTick).2).renderCalls = sD.renderCalls := by
  have h := fast_path_copy_iff render0 sD ctxD matD (by decide) (by decide) (by decide)
  have h2 := h.2.1 "/tex/metal.png" (by decide) (by decide)
  exact ⟨⟨by decide, by decide, by decide⟩, by decide, h2.1, h2.2⟩

theorem match_removeLink_nodes (nt : NodeTree) (o : Option Link) :
    (match o with | some l0 => nt.removeLink l0 | none => nt).nodes = nt.nodes := by
  cases o <;> rfl

section
attribute [local semireducible] Rat.mul Rat.inv Rat.add Rat.sub

/-- C7: in a SETUP step on a material whose graph has an output node but
where no extraction source is found (the scan over the rewired graph yields
none), the temporary emission node's color input is set to the
channel-specific default constant, and that table is (0,0,0,1) for
base_color, (1/2,1/2,1/2,1) for roughness, (1,1,1,1) for alpha,
(1/2,1/2,1,1) for normal and (0,0,0,1) for every other channel. -/
theorem setup_default_emission_color (sp : ModalState) (idx : Nat) (mapName : String)
    (mat : Material)
    (hidx : idx < sp.materials.length)
    (hout : findOutNode (mat.nodeTree.addNode (bakeTexNode mat.nodeTree)) ≠ none)
    (hsrc : findSourceSocket (mat.nodeTree.addNode (bakeTexNode mat.nodeTree)) mapName
      (mat.nodeTree.addNode (bakeTexNode mat.nodeTree)).nodes = none) :
    (((doSetupMat sp idx mapName mat).current_setup.bind (fun ctx => ctx.emissionId)).bind
      (fun e => ((matTreeAt (doSetupMat sp idx mapName mat) idx).nodes.find?
        (fun n => n.id == e)).map (fun n => n.colorValue))) =
      some (defaultBakeColor mapName) ∧
    defaultBakeColor "base_color" = (0, 0, 0, 1) ∧
    defaultBakeColor "roughness" = (1/2, 1/2, 1/2, 1) ∧
    defaultBakeColor "alpha" = (1, 1, 1, 1) ∧
    defaultBakeColor "normal" = (1/2, 1/2, 1, 1) ∧
    (∀ m : String, m ∉ (["roughness", "alpha", "normal"] : List String) →
      defaultBakeColor m = (0, 0, 0, 1)) := by
  obtain ⟨out, hout2⟩ : ∃ out,
      findOutNode (mat.nodeTree.addNode (bakeTexNode mat.nodeTree)) = some out := by
    cases h : findOutNode (mat.nodeTree.addNode (bakeTexNode mat.nodeTree)) with
    | none => exact absurd h hout
    | some out => exact ⟨out, rfl⟩
  refine ⟨?_, by decide, by decide, by decide, by decide, ?_⟩
  · have hcs : (doSetupMat sp idx mapName mat).current_setup =
        some (setupGraphAndCtx idx mapName sp.objName mat.name mat.nodeTree).2 := rfl
    have hmt : matTreeAt (doSetupMat sp idx mapName mat) idx =
        (setupGraphAndCtx idx mapName sp.objName mat.name mat.nodeTree).1 := by
      unfold matTreeAt
      rw [(doSetupMat_fields sp idx mapName mat).2.2.2.2.2.2.2.1]
      rw [getD_set_self _ _ _ _ hidx]
    rw [hcs, hmt]
    have hsrc2 : findSourceSocket (mat.nodeTree.addNode (bakeTexNode mat.nodeTree)) mapName
        (mat.nodeTree.nodes ++ [bakeTexNode mat.nodeTree]) = none := hsrc
    simp only [setupGraphAndCtx, hout2, hsrc, hsrc2, setColorValue_nodes, addLink_nodes,
      match_removeLink_nodes, addNode_nodes, emissionNode_id, bakeTexNode_id,
      Option.bind_eq_bind, Option.some_bind]
    have hlt : ∀ n ∈ mat.nodeTree.nodes ++ [bakeTexNode mat.nodeTree],
        n.id < freshId (mat.nodeTree.addNode (bakeTexNode mat.nodeTree)) := by
      intro n hn
      exact freshId_gt (mat.nodeTree.addNode (bakeTexNode mat.nodeTree)) n hn
    rw [List.map_append]
    rw [find?_append_of_none _ _ _ (find?_none_of_false _ _ ?pre)]
    case pre =>
      intro x hx
      obtain ⟨a, ha, hax⟩ := List.mem_map.mp hx
      have hane : (a.id == freshId (mat.nodeTree.addNode (bakeTexNode mat.nodeTree))) = false :=
        beq_eq_false_iff_ne.mpr (Nat.ne_of_lt (hlt a ha))
      rw [← hax]
      simp [hane]
    have hfem : (List.map
        (fun n => if n.id == freshId (mat.nodeTree.addNode (bakeTexNode mat.nodeTree)) then
          { n with colorValue := defaultBakeColor mapName } else n)
        [emissionNode (mat.nodeTree.addNode (bakeTexNode mat.nodeTree))]) =
        [{ emissionNode (mat.nodeTree.addNode (bakeTexNode mat.nodeTree)) with
            colorValue := defaultBakeColor mapName }] := by
      simp
    rw [hfem]
    rw [List.find?_cons_of_pos _ (by simp)]
    rfl
  · intro m hmem
    have h1 : ¬ m = "roughness" := fun he => hmem (by rw [he]; decide)
    have h2 : ¬ m = "alpha" := fun he => hmem (by rw [he]; decide)
    have h3 : ¬ m = "normal" := fun he => hmem (by rw [he]; decide)
    unfold defaultBakeColor
    rw [if_neg h1, if_neg h2, if_neg h3]

end

theorem setup_default_emission_color_witness :
    (0 < spC7.materials.length ∧
     findOutNode (matC.nodeTree.addNode (bakeTexNode matC.nodeTree)) ≠ none ∧
     findSourceSocket (matC.nodeTree.addNode (bakeTexNode matC.nodeTree)) "roughness"
       (matC.nodeTree.addNode (bakeTexNode matC.nodeTree)).nodes = none) ∧
    (((doSetupMat spC7 0 "roughness" matC).current_setup.bind (fun ctx => ctx.emissionId)).bind
      (fun e => ((matTreeAt (doSetupMat spC7 0 "roughness" matC) 0).nodes.find?
        (fun n => n.id == e)).map (fun n => n.colorValue))) =
      some (defaultBakeColor "roughness") := by
  refine ⟨⟨by decide, by decide, by decide⟩, ?_⟩
  exact (setup_default_emission_color spC7 0 "roughness" matC
    (by decide) (by decide) (by decide)).1

theorem assignChannelFile_keys (folder f : String) (m : List (String × Option String)) :
    (assignChannelFile folder f m).map (fun e => e.1) = m.map (fun e => e.1) := by
  induction m with
  | nil => rfl
  | cons hd tl ih =>
    obtain ⟨k1, v⟩ := hd
    by_cases h : containsCI f k1 = true
    · simp only [assignChannelFile]
      rw [if_pos h]
      simp only [List.map_cons]
    · simp only [assignChannelFile]
      rw [if_neg h]
      simp only [List.map_cons, ih]

theorem foldl_assign_keys (folder : String) (files : List String) :
    ∀ m : List (String × Option String),
      ((files.foldl (fun expected f => assignChannelFile folder f expected) m).map
        (fun e => e.1)) = m.map (fun e => e.1) := by
  induction files with
  | nil => intro m; rfl
  | cons f fs ih =>
    intro m
    rw [List.foldl_cons, ih, assignChannelFile_keys]

theorem resolveChannelFiles_keys (folder : String) (files : List String) :
    (resolveChannelFiles folder files).map (fun e => e.1) = swapKeywords := by
  unfold resolveChannelFiles
  rw [foldl_assign_keys]
  rfl

theorem lookupChannel_map_none (L : List String) (k : String) :
    lookupChannel (L.map (fun t => (t, (none : Option String)))) k = none := by
  unfold lookupChannel
  cases hf : (L.map (fun t => (t, (none : Option String)))).find? (fun e => e.1 == k) with
  | none => rfl
  | some e =>
    have he := List.mem_of_find?_eq_some hf
    obtain ⟨t, _, rfl⟩ := List.mem_map.mp he
    rfl

theorem lookupChannel_assign (folder f k : String) :
    ∀ m : List (String × Option String), (m.map (fun e => e.1)).Nodup →
    lookupChannel (assignChannelFile folder f m) k =
      (if (m.map (fun e => e.1)).find? (fun q => containsCI f q) = some k
       then some (folder ++ "/" ++ f) else lookupChannel m k) := by
  intro m
  induction m with
  | nil =>
    intro _
    simp [assignChannelFile, lookupChannel]
  | cons hd tl ih =>
    intro hnd
    obtain ⟨k1, v⟩ := hd
    simp only [List.map_cons] at hnd
    obtain ⟨hk1mem, hndtl⟩ := List.nodup_cons.mp hnd
    by_cases hcf : containsCI f k1 = true
    · have ha : assignChannelFile folder f ((k1, v) :: tl) =
          (k1, some (folder ++ "/" ++ f)) :: tl := by
        simp only [assignChannelFile]
        rw [if_pos hcf]
      have hfind : (List.map (fun e => e.1) ((k1, v) :: tl)).find? (fun q => containsCI f q)
          = some k1 := by
        simp only [List.map_cons]
        exact List.find?_cons_of_pos _ hcf
      rw [ha, hfind]
      by_cases hk1k : k1 = k
      · subst hk1k
        rw [if_pos rfl]
        unfold lookupChannel
        rw [List.find?_cons_of_pos _ (by simp)]
        rfl
      · rw [if_neg (by simpa using hk1k)]
        unfold lookupChannel
        rw [List.find?_cons_of_neg _ (by simp [hk1k]), List.find?_cons_of_neg _ (by simp [hk1k])]
    · have ha : assignChannelFile folder f ((k1, v) :: tl) =
          (k1, v) :: assignChannelFile folder f tl := by
        simp only [assignChannelFile]
        rw [if_neg hcf]
      have hfind : (List.map (fun e => e.1) ((k1, v) :: tl)).find? (fun q => containsCI f q)
          = (tl.map (fun e => e.1)).find? (fun q => containsCI f q) := by
        simp only [List.map_cons]
        exact List.find?_cons_of_neg _ hcf
      rw [ha, hfind]
      by_cases hk1k : k1 = k
      · subst hk1k
        have hcond : ¬ ((tl.map (fun e => e.1)).find? (fun q => containsCI f q) = some k1) := by
          intro hc
          exact hk1mem (List.mem_of_find?_eq_some hc)
        rw [if_neg hcond]
        unfold lookupChannel
        rw [List.find?_cons_of_pos _ (by simp), List.find?_cons_of_pos _ (by simp)]
      · unfold lookupChannel
        rw [List.find?_cons_of_neg _ (by simp [hk1k]), List.find?_cons_of_neg _ (by simp [hk1k])]
        have hih := ih hndtl
        unfold lookupChannel at hih
        exact hih

/-- C6: the spec's resolver semantics is wrong about which match wins.  The
loop at src/__init__.py:319-329 iterates over directory entries in the OUTER
loop and over the channel keywords in the INNER loop, so a later file that
matches a keyword OVERWRITES an earlier match: for every channel keyword
present in the dict, the resolved path is the LAST directory entry, in
listing order, whose FIRST matching keyword (in dict order) is that keyword;
a channel with no match maps to absent, which is not an error. -/
theorem resolve_channel_last_match (folder : String) (files : List String) (k : String)
    (hk : k ∈ swapKeywords) :
    lookupChannel (resolveChannelFiles folder files) k =
      ((files.filter (fun f => firstKeyword f == some k)).getLast?).map
        (fun f => folder ++ "/" ++ f) := by
  induction files using List.reverseRecOn with
  | nil =>
    have h0 : resolveChannelFiles folder [] =
        swapKeywords.map (fun t => (t, (none : Option String))) := rfl
    rw [h0, lookupChannel_map_none]
    rfl
  | append_singleton fs f ih =>
    have hstep : resolveChannelFiles folder (fs ++ [f]) =
        assignChannelFile folder f (resolveChannelFiles folder fs) := by
      unfold resolveChannelFiles
      rw [List.foldl_append, List.foldl_cons, List.foldl_nil]
    rw [hstep]
    have hkeys := resolveChannelFiles_keys folder fs
    have hnd : ((resolveChannelFiles folder fs).map (fun e => e.1)).Nodup := by
      rw [hkeys]; decide
    rw [lookupChannel_assign folder f k (resolveChannelFiles folder fs) hnd]
    rw [hkeys]
    have hfk : swapKeywords.find? (fun q => containsCI f q) = firstKeyword f := rfl
    rw [hfk]
    rw [List.filter_append]
    by_cases hc : firstKeyword f = some k
    · rw [if_pos hc]
      have hone : List.filter (fun f => firstKeyword f == some k) [f] = [f] := by
        simp [List.filter, hc]
      rw [hone, List.getLast?_concat]
      rfl
    · rw [if_neg hc]
      have hbe : (firstKeyword f == some k) = false := beq_eq_false_iff_ne.mpr hc
      have hzero : List.filter (fun f => firstKeyword f == some k) [f] = [] := by
        simp [List.filter, hbe]
      rw [hzero, List.append_nil]
      exact ih

theorem resolve_channel_last_match_witness :
    "Diffuse" ∈ swapKeywords ∧
    lookupChannel (resolveChannelFiles "/t" ["x_diffuse.png", "y_Diffuse.png"]) "Diffuse" =
      (((["x_diffuse.png", "y_Diffuse.png"] : List String).filter
          (fun f => firstKeyword f == some "Diffuse")).getLast?).map
        (fun f => "/t" ++ "/" ++ f) :=
  ⟨by decide,
   resolve_channel_last_match "/t" ["x_diffuse.png", "y_Diffuse.png"] "Diffuse" (by decide)⟩

/-- C6 counterexample: the claim as stated is false — with two entries both
containing "diffuse", the resolver the code implements keeps the LAST one in
listing order, while the spec's first-match semantics would keep the first:
the two resolvers disagree on this directory. -/
theorem resolve_channel_first_match_counterexample :
    lookupChannel (resolveChannelFiles "" ["a_diffuse.png", "b_diffuse.png"]) "Diffuse" =
      some "/b_diffuse.png" ∧
    resolveChannelFilesSpecOrder "" ["a_diffuse.png", "b_diffuse.png"] "Diffuse" =
      some "/a_diffuse.png" ∧
    lookupChannel (resolveChannelFiles "" ["a_diffuse.png", "b_diffuse.png"]) "Diffuse" ≠
      resolveChannelFilesSpecOrder "" ["a_diffuse.png", "b_diffuse.png"] "Diffuse" := by
  refine ⟨by decide, by decide, ?_⟩
  decide

theorem swapExecuteNode_inv (expected : List (String × Option String))
    (db : List (String × Int × Int)) (w0 h0 : Int) (node : SwapNode) (st : SwapState)
    (h1 : ∀ e ∈ st.log, e.colorspace = if e.label = "Diffuse" then "sRGB" else "Non-Color")
    (h2 : st.cnt = st.log.length)
    (h3 : (st.bake_width, st.bake_height) =
      (match (st.log.filter (fun e => e.label == "Diffuse")).getLast? with
       | some e => (e.w, e.h)
       | none => (w0, h0))) :
    (∀ e ∈ (swapExecuteNode expected db st node).log,
        e.colorspace = if e.label = "Diffuse" then "sRGB" else "Non-Color") ∧
    (swapExecuteNode expected db st node).cnt = (swapExecuteNode expected db st node).log.length ∧
    ((swapExecuteNode expected db st node).bake_width,
      (swapExecuteNode expected db st node).bake_height) =
      (match ((swapExecuteNode expected db st node).log.filter
          (fun e => e.label == "Diffuse")).getLast? with
       | some e => (e.w, e.h)
       | none => (w0, h0)) := by
  unfold swapExecuteNode
  split
  · cases hlk : lookupChannel expected node.label with
    | none => exact ⟨h1, h2, h3⟩
    | some fp =>
      dsimp only
      cases hsz : imgSize db fp with
      | none => exact ⟨h1, h2, h3⟩
      | some sz =>
        dsimp only
        refine ⟨?_, ?_, ?_⟩
        · intro e he
          rcases List.mem_append.mp he with hold | hnew
          · exact h1 e hold
          · rw [List.mem_singleton] at hnew
            subst hnew
            rfl
        · simp [h2]
        · rw [List.filter_append]
          by_cases hd : node.label = "Diffuse"
          · have hone : List.filter (fun e => e.label == "Diffuse")
                ([{ label := node.label, filepath := fp,
                    colorspace := if node.label = "Diffuse" then "sRGB" else "Non-Color",
                    w := sz.1, h := sz.2 }] : List SwapEvent) =
                ([{ label := node.label, filepath := fp,
                    colorspace := if node.label = "Diffuse" then "sRGB" else "Non-Color",
                    w := sz.1, h := sz.2 }] : List SwapEvent) := by
              simp [hd]
            rw [hone, List.getLast?_concat]
            rw [if_pos hd, if_pos hd]
          · have hbe : (node.label == "Diffuse") = false := beq_eq_false_iff_ne.mpr hd
            have hzero : List.filter (fun e => e.label == "Diffuse")
                ([{ label := node.label, filepath := fp,
                    colorspace := if node.label = "Diffuse" then "sRGB" else "Non-Color",
                    w := sz.1, h := sz.2 }] : List SwapEvent) = [] := by
              simp [hbe]
            rw [hzero, List.append_nil]
            rw [if_neg hd, if_neg hd]
            exact h3
  · exact ⟨h1, h2, h3⟩

theorem swapExecute_fold_inv (expected : List (String × Option String))
    (db : List (String × Int × Int)) (w0 h0 : Int) :
    ∀ (nodes : List SwapNode) (st : SwapState),
      (∀ e ∈ st.log, e.colorspace = if e.label = "Diffuse" then "sRGB" else "Non-Color") →
      st.cnt = st.log.length →
      ((st.bake_width, st.bake_height) =
        (match (st.log.filter (fun e => e.label == "Diffuse")).getLast? with
         | some e => (e.w, e.h)
         | none => (w0, h0))) →
      ((∀ e ∈ (nodes.foldl (swapExecuteNode expected db) st).log,
          e.colorspace = if e.label = "Diffuse" then "sRGB" else "Non-Color") ∧
       (nodes.foldl (swapExecuteNode expected db) st).cnt =
         (nodes.foldl (swapExecuteNode expected db) st).log.length ∧
       ((nodes.foldl (swapExecuteNode expected db) st).bake_width,
        (nodes.foldl (swapExecuteNode expected db) st).bake_height) =
        (match ((nodes.foldl (swapExecuteNode expected db) st).log.filter
            (fun e => e.label == "Diffuse")).getLast? with
         | some e => (e.w, e.h)
         | none => (w0, h0))) := by
  intro nodes
  induction nodes with
  | nil => intro st h1 h2 h3; exact ⟨h1, h2, h3⟩
  | cons n ns ih =>
    intro st h1 h2 h3
    rw [List.foldl_cons]
    obtain ⟨g1, g2, g3⟩ := swapExecuteNode_inv expected db w0 h0 n st h1 h2 h3
    exact ih _ g1 g2 g3

/-- C8: the swap-engine loop contract.  For every load the loop performs, the
image's colorspace is set to sRGB exactly when the slot's label is Diffuse
and to Non-Color for every other channel; the swapped-count equals the number
of successful loads; and the bake target size equals the native pixel
dimensions of the last successful Diffuse load, or the incoming size if no
Diffuse load succeeded. -/
theorem swap_engine_loop_contract (expected : List (String × Option String))
    (db : List (String × Int × Int)) (nodes : List SwapNode) (w0 h0 : Int) :
    (∀ e ∈ (swapExecute expected db nodes w0 h0).log,
        e.colorspace = if e.label = "Diffuse" then "sRGB" else "Non-Color") ∧
    (swapExecute expected db nodes w0 h0).cnt =
      (swapExecute expected db nodes w0 h0).log.length ∧
    ((swapExecute expected db nodes w0 h0).bake_width,
     (swapExecute expected db nodes w0 h0).bake_height) =
      (match ((swapExecute expected db nodes w0 h0).log.filter
          (fun e => e.label == "Diffuse")).getLast? with
       | some e => (e.w, e.h)
       | none => (w0, h0)) := by
  unfold swapExecute
  exact swapExecute_fold_inv expected db w0 h0 nodes _ (by intro e he; cases he) rfl rfl

def expC8 : List (String × Option String) := [("Diffuse", some "/d.png"), ("Normal", some "/n.png")]

def dbC8 : List (String × Int × Int) := [("/d.png", (7, 9)), ("/n.png", (3, 4))]

def nodesC8 : List SwapNode :=
  [{ ntype := NodeType.TEX_IMAGE, label := "Diffuse", image := none },
   { ntype := NodeType.TEX_IMAGE, label := "Normal", image := none }]

theorem swap_engine_loop_contract_witness :
    (swapExecute expC8 dbC8 nodesC8 3 5).cnt = (swapExecute expC8 dbC8 nodesC8 3 5).log.length ∧
    ((swapExecute expC8 dbC8 nodesC8 3 5).bake_width,
     (swapExecute expC8 dbC8 nodesC8 3 5).bake_height) = ((7 : Int), (9 : Int)) := by
  refine ⟨(swap_engine_loop_contract expC8 dbC8 nodesC8 3 5).2.1, ?_⟩
  have h := (swap_engine_loop_contract expC8 dbC8 nodesC8 3 5).2.2
  rw [h]
  decide
